import Mathlib

/-!
Verification of the orderbook trading-engine repository.

Shallow embedding of the Rust sources into Lean 4:
`f64` values are modelled as `ℚ` (the code performs only field arithmetic,
comparisons, `abs`, `min`/`max` on them; the square root appearing in the
Bollinger indicator is abstracted as an arbitrary function `ℚ → ℚ`),
`u64`/`usize` as `ℕ`, `i64` as `ℤ`, `VecDeque`/`Vec` as `List` (front at the
head), fallible results as `Option`/`Except`.  Stateful methods become
functions returning the updated state together with the method's result.
-/

namespace PM
/- Embedding of src/position_manager.rs -/

/-- `BankrollInfo` from src/position_manager.rs. -/
structure BankrollInfo where
  total_balance : ℚ
  available_balance : ℚ
  risk_percentage : ℚ
deriving Repr, DecidableEq

/-- `BankrollInfo::new`. -/
def BankrollInfo.new (total_balance : ℚ) : BankrollInfo :=
  { total_balance := total_balance
    available_balance := total_balance
    risk_percentage := 1 }

/-- `BankrollInfo::calculate_position_size`. -/
def BankrollInfo.calculate_position_size (b : BankrollInfo) (stop_loss_pct : ℚ) : ℚ :=
  if stop_loss_pct ≤ 0 then 0
  else
    let risk_amount := b.available_balance * (b.risk_percentage / 100)
    risk_amount / (stop_loss_pct / 100)

/-- `BankrollInfo::update_available_balance`. -/
def BankrollInfo.update_available_balance (b : BankrollInfo) (new_balance : ℚ) : BankrollInfo :=
  { b with available_balance := new_balance }

/-- `PositionState` from src/position_manager.rs. -/
inductive PositionState where
  | none
  | long
  | short
deriving Repr, DecidableEq

/-- `OpenPosition` from src/position_manager.rs. -/
structure OpenPosition where
  state : PositionState
  entry_price : ℚ
  entry_time : ℕ
  position_size : ℚ
  position_value : ℚ
  stop_loss_price : ℚ
  stop_loss_pct : ℚ
  take_profit_price : Option ℚ
  unrealized_pnl : ℚ
  unrealized_pnl_pct : ℚ
  entry_fee : ℚ
  db_id : Option ℤ
deriving Repr, DecidableEq

/-- `OpenPosition::new_long`. -/
def OpenPosition.new_long (entry_price : ℚ) (entry_time : ℕ) (position_size : ℚ)
    (stop_loss_price : ℚ) : OpenPosition :=
  { state := PositionState.long
    entry_price := entry_price
    entry_time := entry_time
    position_size := position_size
    position_value := position_size * entry_price
    stop_loss_price := stop_loss_price
    stop_loss_pct := ((entry_price - stop_loss_price) / entry_price) * 100
    take_profit_price := Option.none
    unrealized_pnl := 0
    unrealized_pnl_pct := 0
    entry_fee := 0
    db_id := Option.none }

/-- `OpenPosition::new_short`. -/
def OpenPosition.new_short (entry_price : ℚ) (entry_time : ℕ) (position_size : ℚ)
    (stop_loss_price : ℚ) : OpenPosition :=
  { state := PositionState.short
    entry_price := entry_price
    entry_time := entry_time
    position_size := position_size
    position_value := position_size * entry_price
    stop_loss_price := stop_loss_price
    stop_loss_pct := ((stop_loss_price - entry_price) / entry_price) * 100
    take_profit_price := Option.none
    unrealized_pnl := 0
    unrealized_pnl_pct := 0
    entry_fee := 0
    db_id := Option.none }

/-- `OpenPosition::update_pnl`. -/
def OpenPosition.update_pnl (p : OpenPosition) (current_price : ℚ) : OpenPosition :=
  match p.state with
  | PositionState.long =>
      let price_change := current_price - p.entry_price
      { p with unrealized_pnl := price_change * p.position_size
               unrealized_pnl_pct := (price_change / p.entry_price) * 100 }
  | PositionState.short =>
      let price_change := p.entry_price - current_price
      { p with unrealized_pnl := price_change * p.position_size
               unrealized_pnl_pct := (price_change / p.entry_price) * 100 }
  | PositionState.none => p

/-- `ClosedTrade` from src/position_manager.rs. -/
structure ClosedTrade where
  entry_price : ℚ
  exit_price : ℚ
  position_size : ℚ
  profit_loss : ℚ
  profit_loss_pct : ℚ
  entry_time : ℕ
  exit_time : ℕ
  trade_type : String
  db_id : Option ℤ
deriving Repr, DecidableEq

/-- `PositionManager` from src/position_manager.rs (the `supabase` client is an
external handle and is not part of the in-memory trading state). -/
structure PositionManager where
  bankroll : BankrollInfo
  position : Option OpenPosition
  closed_trades : List ClosedTrade
  trade_timestamps : List ℕ
  initial_balance_session : ℚ
  last_adx : ℚ
  last_regime : String
  last_bollinger : Option (ℚ × ℚ × ℚ)
deriving Repr, DecidableEq

/-- `PositionManager::new`. -/
def PositionManager.new (bankroll : ℚ) : PositionManager :=
  { bankroll := BankrollInfo.new bankroll
    position := Option.none
    closed_trades := []
    trade_timestamps := []
    initial_balance_session := bankroll
    last_adx := 0
    last_regime := "Unknown"
    last_bollinger := Option.none }

/-- The timestamp-purge loop at the head of `PositionManager::check_safety_limits`:
pop from the front while the front entry is older than 3600 s.  `now - t` is the
`u64` subtraction of the source, modelled on `ℕ` (they agree for `t ≤ now`). -/
def purge_old_timestamps (now : ℕ) : List ℕ → List ℕ
  | [] => []
  | t :: rest => if 3600 < now - t then purge_old_timestamps now rest else t :: rest

/-- `PositionManager::check_safety_limits`.  The wall-clock read
`SystemTime::now()` is passed in as `now` (seconds). The error strings of the
source carry interpolated numbers; only the `Err`/`Ok` distinction matters here. -/
def PositionManager.check_safety_limits (pm : PositionManager) (now : ℕ)
    (max_drawdown_pct : ℚ) (max_trades_per_hour : ℕ) :
    PositionManager × Except String Unit :=
  let current_equity := pm.bankroll.total_balance
  let drawdown_pct := ((pm.initial_balance_session - current_equity) / pm.initial_balance_session) * 100
  if max_drawdown_pct < drawdown_pct then
    (pm, Except.error "KILL SWITCH ACTIVATED: Max Drawdown Exceeded")
  else
    let ts := purge_old_timestamps now pm.trade_timestamps
    let pm := { pm with trade_timestamps := ts }
    if max_trades_per_hour ≤ ts.length then
      (pm, Except.error "KILL SWITCH ACTIVATED: Trading Frequency Exceeded")
    else
      (pm, Except.ok ())

/-- `PositionManager::open_long`. -/
def PositionManager.open_long (pm : PositionManager) (entry_price : ℚ) (entry_time : ℕ)
    (stop_loss_price : ℚ) : PositionManager × Option OpenPosition :=
  if pm.position.isSome then (pm, Option.none)
  else
    let stop_loss_pct := ((entry_price - stop_loss_price) / entry_price) * 100
    let position_value := pm.bankroll.calculate_position_size stop_loss_pct
    -- 1. Minimum Order Value ($10)
    let position_value := if position_value < 10 then 10 else position_value
    -- 2. Max Leverage 1x (except when the value was forced to $10)
    let position_value :=
      if pm.bankroll.available_balance < position_value then
        if position_value = 10 then position_value else pm.bankroll.available_balance
      else position_value
    let position_size := position_value / entry_price
    let position := OpenPosition.new_long entry_price entry_time position_size stop_loss_price
    let cost := min position.position_value pm.bankroll.available_balance
    let bankroll := pm.bankroll.update_available_balance (pm.bankroll.available_balance - cost)
    ({ pm with bankroll := bankroll, position := some position }, some position)

/-- `PositionManager::open_short`. -/
def PositionManager.open_short (pm : PositionManager) (entry_price : ℚ) (entry_time : ℕ)
    (stop_loss_price : ℚ) : PositionManager × Option OpenPosition :=
  if pm.position.isSome then (pm, Option.none)
  else
    let stop_loss_pct := ((stop_loss_price - entry_price) / entry_price) * 100
    let position_value := pm.bankroll.calculate_position_size stop_loss_pct
    -- 1. Minimum Order Value ($10)
    let position_value := if position_value < 10 then 10 else position_value
    -- 2. Max Leverage 1x (except when the value was forced to $10)
    let position_value :=
      if pm.bankroll.available_balance < position_value then
        if position_value = 10 then position_value else pm.bankroll.available_balance
      else position_value
    let position_size := position_value / entry_price
    let position := OpenPosition.new_short entry_price entry_time position_size stop_loss_price
    let cost := min position.position_value pm.bankroll.available_balance
    let bankroll := pm.bankroll.update_available_balance (pm.bankroll.available_balance - cost)
    ({ pm with bankroll := bankroll, position := some position }, some position)

/-- `PositionManager::close_position`. -/
def PositionManager.close_position (pm : PositionManager) (exit_price : ℚ) (exit_time : ℕ) :
    PositionManager × Option ClosedTrade :=
  match pm.position with
  | some pos0 =>
      let pos := pos0.update_pnl exit_price
      let trade_type : String :=
        match pos.state with
        | PositionState.long => "Long"
        | PositionState.short => "Short"
        | PositionState.none => "Unknown"
      let closed : ClosedTrade :=
        { entry_price := pos.entry_price
          exit_price := exit_price
          position_size := pos.position_size
          profit_loss := pos.unrealized_pnl
          profit_loss_pct := pos.unrealized_pnl_pct
          entry_time := pos.entry_time
          exit_time := exit_time
          trade_type := trade_type
          db_id := pos.db_id }
      let exit_value :=
        match pos.state with
        | PositionState.long => pos.position_size * exit_price
        | PositionState.short =>
            -- "Pour un short, on gagne si le prix baisse"
            let profit := pos.unrealized_pnl
            pos.position_value - profit
        | PositionState.none => 0
      let bankroll := pm.bankroll.update_available_balance
        (pm.bankroll.available_balance + exit_value)
      let bankroll := { bankroll with total_balance := bankroll.total_balance + closed.profit_loss }
      ({ pm with
          bankroll := bankroll
          position := Option.none
          closed_trades := pm.closed_trades ++ [closed]
          trade_timestamps := pm.trade_timestamps ++ [exit_time] },
       some closed)
  | Option.none => (pm, Option.none)

/-- `PositionManager::update_current_pnl`. -/
def PositionManager.update_current_pnl (pm : PositionManager) (current_price : ℚ) :
    PositionManager :=
  match pm.position with
  | some pos => { pm with position := some (pos.update_pnl current_price) }
  | Option.none => pm

end PM

namespace OB
/- Embedding of src/orderbook.rs.  The `interfaces` module declaring `Price`,
`Quantity`, `Side`, `Update` is referenced by main.rs but absent from the
source tree.  Modelled from the spec: `Price` is `i64` ("in i64 with 4
decimals", orderbook.rs comment) hence `ℤ`; `Quantity` is an unsigned integer
(`vec![0; levels]` and the `as Quantity` integer casts of data_loader.rs)
hence `ℕ`; `Side` and `Update` are as the match arms of `apply_update` use
them. -/

/-- `Side` of the missing interfaces module. -/
inductive Side where
  | bid
  | ask
deriving Repr, DecidableEq

/-- `Update` of the missing interfaces module. -/
inductive Update where
  | set (price : ℤ) (quantity : ℕ) (side : Side)
  | remove (price : ℤ) (side : Side)
deriving Repr, DecidableEq

/-- `OrderBookImpl` from src/orderbook.rs. -/
structure OrderBookImpl where
  bids : List ℕ
  asks : List ℕ
  best_bid_idx : Option ℕ
  best_ask_idx : Option ℕ
  min_price : ℤ
  max_price : ℤ
deriving Repr, DecidableEq

/-- `OrderBookImpl::with_range` (`(max_price - min_price) as usize` for a
non-crossed range is `Int.toNat`). -/
def OrderBookImpl.with_range (min_price max_price : ℤ) : OrderBookImpl :=
  let levels := (max_price - min_price).toNat
  { bids := List.replicate levels 0
    asks := List.replicate levels 0
    best_bid_idx := Option.none
    best_ask_idx := Option.none
    min_price := min_price
    max_price := max_price }

/-- `OrderBook::new` for `OrderBookImpl`. -/
def OrderBookImpl.new : OrderBookImpl := OrderBookImpl.with_range 0 200000

/-- `OrderBookImpl::price_to_idx`. -/
def OrderBookImpl.price_to_idx (b : OrderBookImpl) (price : ℤ) : Option ℕ :=
  if b.min_price ≤ price ∧ price < b.max_price then some (price - b.min_price).toNat
  else Option.none

/-- `OrderBookImpl::idx_to_price`. -/
def OrderBookImpl.idx_to_price (b : OrderBookImpl) (idx : ℕ) : ℤ :=
  b.min_price + (idx : ℤ)

/-- `OrderBookImpl::price_levels`. -/
def OrderBookImpl.price_levels (b : OrderBookImpl) : ℕ := b.bids.length

/-- `(0..idx).rev().find(|&i| q[i] > 0)`: the scan for the next best bid below
`idx`, reading absent entries as 0. -/
def findDown (q : List ℕ) : ℕ → Option ℕ
  | 0 => Option.none
  | n + 1 => if 0 < q.getD n 0 then some n else findDown q n

/-- `(i..i+fuel).find(|&j| q[j] > 0)`, by fuel. -/
def findUpFrom (q : List ℕ) : ℕ → ℕ → Option ℕ
  | 0, _ => Option.none
  | fuel + 1, i => if 0 < q.getD i 0 then some i else findUpFrom q fuel (i + 1)

/-- `(start..levels).find(|&i| q[i] > 0)`: the scan for the next best ask. -/
def findUp (q : List ℕ) (levels start : ℕ) : Option ℕ :=
  findUpFrom q (levels - start) start

/-- `OrderBookImpl::apply_update` (`OrderBook` impl). -/
def OrderBookImpl.apply_update (b : OrderBookImpl) (u : Update) : OrderBookImpl :=
  match u with
  | Update.set price quantity side =>
      match b.price_to_idx price with
      | some idx =>
          let levels := b.price_levels
          match side with
          | Side.bid =>
              let bids := b.bids.set idx quantity
              if 0 < quantity then
                { b with bids := bids
                         best_bid_idx := some (match b.best_bid_idx with
                           | some best => if best < idx then idx else best
                           | Option.none => idx) }
              else if b.best_bid_idx = some idx then
                { b with bids := bids, best_bid_idx := findDown bids idx }
              else
                { b with bids := bids }
          | Side.ask =>
              let asks := b.asks.set idx quantity
              if 0 < quantity then
                { b with asks := asks
                         best_ask_idx := some (match b.best_ask_idx with
                           | some best => if idx < best then idx else best
                           | Option.none => idx) }
              else if b.best_ask_idx = some idx then
                { b with asks := asks, best_ask_idx := findUp asks levels (idx + 1) }
              else
                { b with asks := asks }
      | Option.none => b
  | Update.remove price side =>
      match b.price_to_idx price with
      | some idx =>
          match side with
          | Side.bid =>
              let bids := b.bids.set idx 0
              if b.best_bid_idx = some idx then
                { b with bids := bids, best_bid_idx := findDown bids idx }
              else
                { b with bids := bids }
          | Side.ask =>
              let asks := b.asks.set idx 0
              let levels := b.price_levels
              if b.best_ask_idx = some idx then
                { b with asks := asks, best_ask_idx := findUp asks levels (idx + 1) }
              else
                { b with asks := asks }
      | Option.none => b

/-- `OrderBookImpl::get_spread`. -/
def OrderBookImpl.get_spread (b : OrderBookImpl) : Option ℤ :=
  match b.best_ask_idx, b.best_bid_idx with
  | some ask_idx, some bid_idx => some (b.idx_to_price ask_idx - b.idx_to_price bid_idx)
  | _, _ => Option.none

/-- `OrderBookImpl::get_best_bid`. -/
def OrderBookImpl.get_best_bid (b : OrderBookImpl) : Option ℤ :=
  b.best_bid_idx.map b.idx_to_price

/-- `OrderBookImpl::get_best_ask`. -/
def OrderBookImpl.get_best_ask (b : OrderBookImpl) : Option ℤ :=
  b.best_ask_idx.map b.idx_to_price

/-- `OrderBookImpl::get_quantity_at`. -/
def OrderBookImpl.get_quantity_at (b : OrderBookImpl) (price : ℤ) (side : Side) : Option ℕ :=
  match b.price_to_idx price with
  | some idx =>
      let qty := match side with
        | Side.bid => b.bids.getD idx 0
        | Side.ask => b.asks.getD idx 0
      if 0 < qty then some qty else Option.none
  | Option.none => Option.none

/-- Book states reachable from a freshly constructed (empty) book by
`apply_update` operations. -/
inductive Reachable : OrderBookImpl → Prop where
  | base (min_price max_price : ℤ) : Reachable (OrderBookImpl.with_range min_price max_price)
  | step (b : OrderBookImpl) (u : Update) : Reachable b → Reachable (b.apply_update u)

/-- `best_bid_idx` is the largest index with non-zero bid quantity, `None` when
no bid quantity is non-zero (indices past the array read as 0). -/
def BestBidInv (b : OrderBookImpl) : Prop :=
  match b.best_bid_idx with
  | some i => 0 < b.bids.getD i 0 ∧ ∀ j, i < j → b.bids.getD j 0 = 0
  | Option.none => ∀ j, b.bids.getD j 0 = 0

/-- `best_ask_idx` is the smallest index with non-zero ask quantity, `None`
when no ask quantity is non-zero. -/
def BestAskInv (b : OrderBookImpl) : Prop :=
  match b.best_ask_idx with
  | some i => 0 < b.asks.getD i 0 ∧ ∀ j, j < i → b.asks.getD j 0 = 0
  | Option.none => ∀ j, b.asks.getD j 0 = 0

/-- Full induction invariant: the arrays have the length fixed by the price
range (so in-range prices index inside them), the sides have equal length (so
the ask rescan bound `price_levels = bids.len()` covers the ask array) and
both best caches are correct. -/
def BookInv (b : OrderBookImpl) : Prop :=
  b.bids.length = (b.max_price - b.min_price).toNat ∧
  b.asks.length = b.bids.length ∧ BestBidInv b ∧ BestAskInv b

/-- The best-maintenance property C2 states for a book: the cached best
indices are the extremal non-zero levels, and erasing any level (by a
zero-quantity `Set` or by `Remove`) leaves the erased price absent and the
best caches again correct. -/
def BestMaintenance (b : OrderBookImpl) : Prop :=
  BestBidInv b ∧ BestAskInv b ∧
  (∀ price side,
    (b.apply_update (Update.set price 0 side)).get_quantity_at price side = Option.none ∧
    BestBidInv (b.apply_update (Update.set price 0 side)) ∧
    BestAskInv (b.apply_update (Update.set price 0 side))) ∧
  (∀ price side,
    (b.apply_update (Update.remove price side)).get_quantity_at price side = Option.none ∧
    BestBidInv (b.apply_update (Update.remove price side)) ∧
    BestAskInv (b.apply_update (Update.remove price side)))

end OB

namespace Strat
/- Embedding of src/adaptive_strategy.rs.  The one operation on `f64` the
rationals cannot mirror exactly is `f64::sqrt` in the Bollinger kernel; it is
abstracted as a parameter `sqrtQ : ℚ → ℚ` threaded through the definitions
(every theorem below holds for an arbitrary `sqrtQ`). -/

/-- `MarketRegime` from src/adaptive_strategy.rs. -/
inductive MarketRegime where
  | Ranging
  | Trending
deriving Repr, DecidableEq

/-- `PositionType` from src/adaptive_strategy.rs. -/
inductive PositionType where
  | None
  | LongRange
  | LongTrend
  | ShortTrend
deriving Repr, DecidableEq

/-- `Signal` from src/adaptive_strategy.rs. -/
inductive Signal where
  | BuyRange
  | SellRange
  | BuyTrend
  | SellTrend
  | SellShort
  | CoverShort
  | UpgradeToTrend
  | Hold
deriving Repr, DecidableEq

/-- `ADX` from src/adaptive_strategy.rs. -/
structure ADX where
  period : ℕ
  tr_buf : List ℚ
  plus_dm_buf : List ℚ
  minus_dm_buf : List ℚ
  dx_buf : List ℚ
  tr_smooth : ℚ
  plus_dm_smooth : ℚ
  minus_dm_smooth : ℚ
  adx_smooth : ℚ
  prev_high : Option ℚ
  prev_low : Option ℚ
  prev_close : Option ℚ
deriving Repr, DecidableEq

/-- `ADX::new`. -/
def ADX.new (period : ℕ) : ADX :=
  { period := period
    tr_buf := []
    plus_dm_buf := []
    minus_dm_buf := []
    dx_buf := []
    tr_smooth := 0
    plus_dm_smooth := 0
    minus_dm_smooth := 0
    adx_smooth := 0
    prev_high := Option.none
    prev_low := Option.none
    prev_close := Option.none }

/-- Phases 1–2 of `ADX::update` ("Initialisation TR/DM (SMA)" / "Lissage
Wilder (RMA)"): while the TR buffer is short of `period`, push the samples and
seed the smoothed values with an SMA once full; afterwards apply the Wilder
RMA with `α = 1/period`. -/
def ADX.smooth_tr_dm (a : ADX) (tr plus_dm minus_dm : ℚ) : ADX :=
  if a.tr_buf.length < a.period then
    let tr_buf := a.tr_buf ++ [tr]
    let plus_dm_buf := a.plus_dm_buf ++ [plus_dm]
    let minus_dm_buf := a.minus_dm_buf ++ [minus_dm]
    let a3 : ADX := { a with tr_buf := tr_buf, plus_dm_buf := plus_dm_buf,
                             minus_dm_buf := minus_dm_buf }
    if tr_buf.length = a.period then
      { a3 with tr_smooth := tr_buf.sum / (a.period : ℚ)
                plus_dm_smooth := plus_dm_buf.sum / (a.period : ℚ)
                minus_dm_smooth := minus_dm_buf.sum / (a.period : ℚ) }
    else a3
  else
    let alpha := 1 / (a.period : ℚ)
    { a with tr_smooth := a.tr_smooth * (1 - alpha) + tr * alpha
             plus_dm_smooth := a.plus_dm_smooth * (1 - alpha) + plus_dm * alpha
             minus_dm_smooth := a.minus_dm_smooth * (1 - alpha) + minus_dm * alpha }

/-- The DX computation and phases 3–4 of `ADX::update` ("Initialisation ADX
(SMA du DX)" / "Lissage ADX (RMA du DX)"), run only once phase 1 is seeded. -/
def ADX.smooth_dx (a2 : ADX) : ADX :=
  if a2.period ≤ a2.tr_buf.length then
    let dx :=
      if a2.tr_smooth ≠ 0 then
        let di_plus := 100 * (a2.plus_dm_smooth / a2.tr_smooth)
        let di_minus := 100 * (a2.minus_dm_smooth / a2.tr_smooth)
        let sum_di := di_plus + di_minus
        if sum_di ≠ 0 then 100 * |di_plus - di_minus| / sum_di else 0
      else 0
    if a2.dx_buf.length < a2.period then
      let dx_buf := a2.dx_buf ++ [dx]
      let a4 : ADX := { a2 with dx_buf := dx_buf }
      if dx_buf.length = a2.period then
        { a4 with adx_smooth := dx_buf.sum / (a2.period : ℚ) }
      else a4
    else
      let alpha := 1 / (a2.period : ℚ)
      { a2 with adx_smooth := a2.adx_smooth * (1 - alpha) + dx * alpha }
  else a2

/-- `ADX::update`: TR and ±DM from the previous candle, then the smoothing
phases above, then the output gate `dx_buf.len() >= period`. -/
def ADX.update (a : ADX) (high low close : ℚ) : ADX × Option ℚ :=
  let a1 :=
    match a.prev_high, a.prev_low, a.prev_close with
    | some ph, some pl, some pc =>
        -- 1. True Range (TR)
        let tr1 := high - low
        let tr2 := |high - pc|
        let tr3 := |low - pc|
        let tr := max (max tr1 tr2) tr3
        -- 2. Directional Movement
        let up_move := high - ph
        let down_move := pl - low
        let plus_dm := if down_move < up_move ∧ 0 < up_move then up_move else 0
        let minus_dm := if up_move < down_move ∧ 0 < down_move then down_move else 0
        ADX.smooth_dx (a.smooth_tr_dm tr plus_dm minus_dm)
    | _, _, _ => a
  let a5 := { a1 with prev_high := some high, prev_low := some low, prev_close := some close }
  -- a value is returned only once everything is initialised (2 * period)
  (a5, if a5.period ≤ a5.dx_buf.length then some a5.adx_smooth else Option.none)

/-- Run `ADX::update` over a candle stream `(high, low, close)`, collecting
the outputs. -/
def ADX.run (a : ADX) : List (ℚ × ℚ × ℚ) → ADX × List (Option ℚ)
  | [] => (a, [])
  | c :: rest =>
      let r := a.update c.1 c.2.1 c.2.2
      let rr := r.1.run rest
      (rr.1, r.2 :: rr.2)

/-- `SuperTrend` from src/adaptive_strategy.rs. -/
structure SuperTrend where
  period : ℕ
  multiplier : ℚ
  atr_values : List ℚ
  prev_close : Option ℚ
  supertrend_value : ℚ
  is_uptrend : Bool
deriving Repr, DecidableEq

/-- `SuperTrend::new`. -/
def SuperTrend.new (period : ℕ) (multiplier : ℚ) : SuperTrend :=
  { period := period
    multiplier := multiplier
    atr_values := []
    prev_close := Option.none
    supertrend_value := 0
    is_uptrend := true }

/-- `SuperTrend::update`. -/
def SuperTrend.update (s : SuperTrend) (high low close : ℚ) : SuperTrend × Option (ℚ × Bool) :=
  let tr :=
    match s.prev_close with
    | some pc => max (max (high - low) |high - pc|) |low - pc|
    | Option.none => high - low
  let atr_values := s.atr_values ++ [tr]
  let atr_values := if s.period < atr_values.length then atr_values.tail else atr_values
  let s := { s with atr_values := atr_values, prev_close := some close }
  if atr_values.length < s.period then (s, Option.none)
  else
    let atr := atr_values.sum / (s.period : ℚ)
    let hl_avg := (high + low) / 2
    let basic_upper := hl_avg + s.multiplier * atr
    let basic_lower := hl_avg - s.multiplier * atr
    if s.is_uptrend then
      let lower_band := max basic_lower s.supertrend_value
      if close ≤ lower_band then
        let s := { s with is_uptrend := false, supertrend_value := basic_upper }
        (s, some (s.supertrend_value, s.is_uptrend))
      else
        let s := { s with supertrend_value := lower_band }
        (s, some (s.supertrend_value, s.is_uptrend))
    else
      let upper_band := min basic_upper s.supertrend_value
      if upper_band ≤ close then
        let s := { s with is_uptrend := true, supertrend_value := basic_lower }
        (s, some (s.supertrend_value, s.is_uptrend))
      else
        let s := { s with supertrend_value := upper_band }
        (s, some (s.supertrend_value, s.is_uptrend))

/-- `BollingerBands` from src/adaptive_strategy.rs. -/
structure BollingerBands where
  period : ℕ
  std_dev_multiplier : ℚ
  prices : List ℚ
deriving Repr, DecidableEq

/-- `BollingerBands::new`. -/
def BollingerBands.new (period : ℕ) (std_dev_multiplier : ℚ) : BollingerBands :=
  { period := period, std_dev_multiplier := std_dev_multiplier, prices := [] }

/-- `BollingerBands::update`; `sqrtQ` stands for `f64::sqrt`. -/
def BollingerBands.update (sqrtQ : ℚ → ℚ) (b : BollingerBands) (price : ℚ) :
    BollingerBands × Option (ℚ × ℚ × ℚ) :=
  let prices := b.prices ++ [price]
  let prices := if b.period < prices.length then prices.tail else prices
  let b := { b with prices := prices }
  if prices.length < b.period then (b, Option.none)
  else
    let mean := prices.sum / (b.period : ℚ)
    let variance := (prices.map (fun v => (mean - v) * (mean - v))).sum / (b.period : ℚ)
    let std_dev := sqrtQ variance
    (b, some (mean - b.std_dev_multiplier * std_dev, mean, mean + b.std_dev_multiplier * std_dev))

/-- `RSI` from src/adaptive_strategy.rs. -/
structure RSI where
  period : ℕ
  prices : List ℚ
  prev_avg_gain : Option ℚ
  prev_avg_loss : Option ℚ
deriving Repr, DecidableEq

/-- `RSI::new`. -/
def RSI.new (period : ℕ) : RSI :=
  { period := period, prices := [], prev_avg_gain := Option.none, prev_avg_loss := Option.none }

/-- The gains/losses accumulation loop of `RSI::update`'s initial branch:
`for i in 1..len { change = p[i] - p[i-1]; if change > 0 { gains += change }
else { losses += |change| } }`. -/
def gainsLosses : List ℚ → ℚ × ℚ
  | p1 :: p2 :: rest =>
      let r := gainsLosses (p2 :: rest)
      let change := p2 - p1
      if 0 < change then (r.1 + change, r.2) else (r.1, r.2 + |change|)
  | _ => (0, 0)

/-- `RSI::update`. -/
def RSI.update (r : RSI) (price : ℚ) : RSI × Option ℚ :=
  let prices := r.prices ++ [price]
  let prices := if r.period + 1 < prices.length then prices.tail else prices
  if prices.length < 2 then ({ r with prices := prices }, Option.none)
  else
    match r.prev_avg_gain with
    | Option.none =>
        -- Initial calculation (first time we have enough data)
        if prices.length ≤ r.period then ({ r with prices := prices }, Option.none)
        else
          let gl := gainsLosses prices
          let avg_gain := gl.1 / (r.period : ℚ)
          let avg_loss := gl.2 / (r.period : ℚ)
          let rs := if avg_loss = 0 then 100 else avg_gain / avg_loss
          ({ r with prices := prices, prev_avg_gain := some avg_gain,
                    prev_avg_loss := some avg_loss },
           some (100 - 100 / (1 + rs)))
    | some prev_avg_gain =>
        -- Smoothed calculation (`prev_avg_loss.unwrap()`: always `Some` here)
        let prev_avg_loss := r.prev_avg_loss.getD 0
        let current_price := prices.getLast?.getD 0
        let prev_price := prices.getD (prices.length - 2) 0
        let change := current_price - prev_price
        let current_gain := if 0 < change then change else 0
        let current_loss := if change < 0 then |change| else 0
        let avg_gain := (prev_avg_gain * ((r.period : ℚ) - 1) + current_gain) / (r.period : ℚ)
        let avg_loss := (prev_avg_loss * ((r.period : ℚ) - 1) + current_loss) / (r.period : ℚ)
        let rs := if avg_loss = 0 then 100 else avg_gain / avg_loss
        ({ r with prices := prices, prev_avg_gain := some avg_gain,
                  prev_avg_loss := some avg_loss },
         some (100 - 100 / (1 + rs)))

/-- `AdaptiveConfig` from src/adaptive_strategy.rs. -/
structure AdaptiveConfig where
  bb_period : ℕ
  bb_std_dev : ℚ
  rsi_period : ℕ
  rsi_oversold : ℚ
  st_period : ℕ
  st_multiplier : ℚ
  adx_period : ℕ
  adx_threshold : ℚ
  max_daily_drawdown_pct : ℚ
  max_trades_per_hour : ℕ
deriving Repr, DecidableEq

/-- `AdaptiveConfig::default`. -/
def AdaptiveConfig.default : AdaptiveConfig :=
  { bb_period := 20
    bb_std_dev := 2
    rsi_period := 14
    rsi_oversold := 30
    st_period := 10
    st_multiplier := 3
    adx_period := 14
    adx_threshold := 20
    max_daily_drawdown_pct := 100
    max_trades_per_hour := 5 }

/-- `AdaptiveStrategy` from src/adaptive_strategy.rs. -/
structure AdaptiveStrategy where
  config : AdaptiveConfig
  bollinger : BollingerBands
  supertrend : SuperTrend
  adx : ADX
  rsi : RSI
  current_regime : MarketRegime
  position_type : PositionType
  entry_price : Option ℚ
  last_adx : ℚ
  last_bollinger : Option (ℚ × ℚ × ℚ)
  last_rsi : ℚ
deriving Repr, DecidableEq

/-- `AdaptiveStrategy::new`. -/
def AdaptiveStrategy.new (config : AdaptiveConfig) : AdaptiveStrategy :=
  { config := config
    bollinger := BollingerBands.new config.bb_period config.bb_std_dev
    supertrend := SuperTrend.new config.st_period config.st_multiplier
    adx := ADX.new config.adx_period
    rsi := RSI.new config.rsi_period
    current_regime := MarketRegime.Ranging
    position_type := PositionType.None
    entry_price := Option.none
    last_adx := 0
    last_bollinger := Option.none
    last_rsi := 50 }

/-- `AdaptiveStrategy::check_exit_condition` (intra-candle exit probe). -/
def AdaptiveStrategy.check_exit_condition (s : AdaptiveStrategy) (current_high : ℚ)
    (_current_low _current_close : ℚ) : Option Signal :=
  match s.position_type with
  | PositionType.LongRange =>
      match s.last_bollinger with
      | some bands => if bands.2.1 ≤ current_high then some Signal.SellRange else Option.none
      | Option.none => Option.none
  | _ => Option.none

/-- `AdaptiveStrategy::force_exit`. -/
def AdaptiveStrategy.force_exit (s : AdaptiveStrategy) : AdaptiveStrategy :=
  { s with position_type := PositionType.None, entry_price := Option.none }

/-- `AdaptiveStrategy::update`; `sqrtQ` stands for `f64::sqrt`. -/
def AdaptiveStrategy.update (sqrtQ : ℚ → ℚ) (s : AdaptiveStrategy) (high low close : ℚ) :
    AdaptiveStrategy × Signal :=
  -- 1. indicator updates
  let bbr := s.bollinger.update sqrtQ close
  let str := s.supertrend.update high low close
  let adxr := s.adx.update high low close
  let rsir := s.rsi.update close
  let s := { s with bollinger := bbr.1, supertrend := str.1, adx := adxr.1, rsi := rsir.1 }
  match bbr.2 with
  | Option.none => (s, Signal.Hold)
  | some bands =>
      let s := { s with last_bollinger := some bands }
      match str.2 with
      | Option.none => (s, Signal.Hold)
      | some st =>
          match adxr.2 with
          | Option.none => (s, Signal.Hold)
          | some adx_value =>
              let s := { s with last_adx := adx_value }
              let s := match rsir.2 with
                | some rsi => { s with last_rsi := rsi }
                | Option.none => s
              -- 2. market regime detection
              let new_regime :=
                if s.config.adx_threshold ≤ adx_value then MarketRegime.Trending
                else MarketRegime.Ranging
              let s := { s with current_regime := new_regime }
              let lower_band := bands.1
              let middle_band := bands.2.1
              let upper_band := bands.2.2
              let st_uptrend := st.2
              -- 3. trading logic by regime (bidirectional)
              match s.position_type with
              | PositionType.None =>
                  match s.current_regime with
                  | MarketRegime.Ranging =>
                      if close < lower_band then
                        ({ s with position_type := PositionType.LongRange,
                                  entry_price := some close }, Signal.BuyRange)
                      else (s, Signal.Hold)
                  | MarketRegime.Trending =>
                      if st_uptrend ∧ upper_band < close then
                        ({ s with position_type := PositionType.LongTrend,
                                  entry_price := some close }, Signal.BuyTrend)
                      else if st_uptrend = false ∧ close < lower_band then
                        ({ s with position_type := PositionType.ShortTrend,
                                  entry_price := some close }, Signal.SellShort)
                      else (s, Signal.Hold)
              | PositionType.LongRange =>
                  -- fast exit at the middle band, checked against HIGH
                  if middle_band ≤ high then
                    ({ s with position_type := PositionType.None,
                              entry_price := Option.none }, Signal.SellRange)
                  else if s.current_regime = MarketRegime.Trending ∧ middle_band < close then
                    ({ s with position_type := PositionType.LongTrend }, Signal.UpgradeToTrend)
                  else if close < lower_band * 0.95 then
                    ({ s with position_type := PositionType.None,
                              entry_price := Option.none }, Signal.SellRange)
                  else (s, Signal.Hold)
              | PositionType.LongTrend =>
                  if st_uptrend = false then
                    ({ s with position_type := PositionType.None,
                              entry_price := Option.none }, Signal.SellTrend)
                  else (s, Signal.Hold)
              | PositionType.ShortTrend =>
                  if st_uptrend then
                    ({ s with position_type := PositionType.None,
                              entry_price := Option.none }, Signal.CoverShort)
                  else (s, Signal.Hold)

end Strat

namespace Feed
/- Embedding of the candle-processing core of src/hyperliquid_feed.rs: the
state a candle message can affect (candle buffer, replay cursor, strategy,
position manager, run flag) and the functions `handle_trading_signal`,
`execute_strategy_logic`, `process_candle` plus the reconnection-replay guard
of `run`.  Console/Telegram/Supabase output and the live-order path (which
only talks to the exchange and rewrites the position from exchange fills) are
external effects outside this state.  `sqrtQ` abstracts `f64::sqrt` and `now`
the wall clock, as above. -/

/-- `CANDLE_BUFFER_SIZE` from src/hyperliquid_feed.rs. -/
def CANDLE_BUFFER_SIZE : ℕ := 100

/-- `HyperCandle` from src/hyperliquid_feed.rs (field `T` is the close
timestamp). -/
structure HyperCandle where
  t : ℕ
  T : ℕ
  s : String
  i : String
  o : ℚ
  c : ℚ
  h : ℚ
  l : ℚ
  v : ℚ
  n : ℕ
deriving Repr, DecidableEq

/-- The mutable state of `HyperliquidFeed` that candle processing touches. -/
structure HyperliquidFeed where
  candle_buffer : List HyperCandle
  last_processed_candle_t : ℕ
  strategy : Strat.AdaptiveStrategy
  position_manager : PM.PositionManager
  is_running : Bool
deriving Repr, DecidableEq

/-- The position-manager effect of `HyperliquidFeed::handle_trading_signal`
(src/hyperliquid_feed.rs): entry signals open a long/short at a ±5% stop,
exit signals close a matching position; `UpgradeToTrend`/`Hold` do nothing;
everything is skipped while the bot is paused. -/
def handle_trading_signal (f : HyperliquidFeed) (signal : Strat.Signal)
    (current_price : ℚ) (current_time : ℕ) : HyperliquidFeed :=
  if f.is_running = false then f
  else
    match signal with
    | Strat.Signal.BuyRange | Strat.Signal.BuyTrend =>
        if f.position_manager.position.isNone then
          let stop_loss_price := current_price * 0.95
          { f with position_manager :=
              (f.position_manager.open_long current_price current_time stop_loss_price).1 }
        else f
    | Strat.Signal.SellRange | Strat.Signal.SellTrend =>
        let should_close : Bool :=
          match f.position_manager.position with
          | some pos => pos.state == PM.PositionState.long
          | Option.none => false
        if should_close then
          { f with position_manager :=
              (f.position_manager.close_position current_price current_time).1 }
        else f
    | Strat.Signal.SellShort =>
        if f.position_manager.position.isNone then
          let stop_loss_price := current_price * 1.05
          { f with position_manager :=
              (f.position_manager.open_short current_price current_time stop_loss_price).1 }
        else f
    | Strat.Signal.CoverShort =>
        let should_close : Bool :=
          match f.position_manager.position with
          | some pos => pos.state == PM.PositionState.short
          | Option.none => false
        if should_close then
          { f with position_manager :=
              (f.position_manager.close_position current_price current_time).1 }
        else f
    | Strat.Signal.UpgradeToTrend | Strat.Signal.Hold => f

/-- `{:?}` rendering of a `MarketRegime`, as stored into
`position_manager.last_regime`. -/
def regimeString : Strat.MarketRegime → String
  | Strat.MarketRegime.Ranging => "Ranging"
  | Strat.MarketRegime.Trending => "Trending"

/-- `HyperliquidFeed::execute_strategy_logic`.  Returns the new state and the
signal that was passed to `handle_trading_signal` (if the warmup/kill-switch
guards let execution proceed). -/
def execute_strategy_logic (sqrtQ : ℚ → ℚ) (f : HyperliquidFeed)
    (closed_candle : HyperCandle) (execution_price : ℚ) (current_time : ℕ) (now : ℕ) :
    HyperliquidFeed × Option Strat.Signal :=
  if 50 ≤ f.candle_buffer.length then
    -- kill switch check
    let ck := f.position_manager.check_safety_limits now
      Strat.AdaptiveConfig.default.max_daily_drawdown_pct
      Strat.AdaptiveConfig.default.max_trades_per_hour
    match ck.2 with
    | Except.error _ => ({ f with position_manager := ck.1 }, Option.none)
    | Except.ok _ =>
        -- indicator update with the closed candle
        let su := f.strategy.update sqrtQ closed_candle.h closed_candle.l closed_candle.c
        let strategy := su.1
        let signal := su.2
        -- shared state for Telegram display
        let pm := { ck.1 with last_adx := strategy.last_adx
                              last_regime := regimeString strategy.current_regime
                              last_bollinger := strategy.last_bollinger }
        -- current P&L refresh
        let pm := pm.update_current_pnl closed_candle.c
        let f := { f with strategy := strategy, position_manager := pm }
        (handle_trading_signal f signal execution_price current_time, some signal)
  else (f, Option.none)

/-- `HyperliquidFeed::process_candle`.  Returns the new state together with
the list of signals handed to `handle_trading_signal` during the call. -/
def process_candle (sqrtQ : ℚ → ℚ) (f : HyperliquidFeed) (candle : HyperCandle)
    (force_close : Bool) (now : ℕ) : HyperliquidFeed × List Strat.Signal :=
  let last_candle_time := (f.candle_buffer.getLast?).map (fun c => c.t)
  if force_close then
    -- special case: force close via watchdog
    let buf :=
      match last_candle_time with
      | some last_t => if candle.t = last_t then f.candle_buffer.dropLast else f.candle_buffer
      | Option.none => f.candle_buffer
    let f := { f with candle_buffer := buf ++ [candle] }
    if f.last_processed_candle_t < candle.t then
      let r := execute_strategy_logic sqrtQ f candle candle.c candle.t now
      ({ r.1 with last_processed_candle_t := candle.t },
       match r.2 with | some sg => [sg] | Option.none => [])
    else (f, [])
  else
    match last_candle_time with
    | some last_t =>
        if candle.t = last_t then
          -- the candle is still forming: refresh the buffer, probe intra-candle exit
          let f := { f with candle_buffer := f.candle_buffer.dropLast ++ [candle] }
          match f.strategy.check_exit_condition candle.h candle.l candle.c with
          | some signal =>
              let f := { f with strategy := f.strategy.force_exit }
              (handle_trading_signal f signal candle.c candle.t, [signal])
          | Option.none => (f, [])
        else if last_t < candle.t then
          -- a new candle begins: the previous one has closed
          let closed_candle := (f.candle_buffer.getLast?).getD candle
          let r :=
            if f.last_processed_candle_t < closed_candle.t then
              let r0 := execute_strategy_logic sqrtQ f closed_candle candle.o candle.t now
              ({ r0.1 with last_processed_candle_t := closed_candle.t },
               match r0.2 with | some sg => [sg] | Option.none => [])
            else (f, [])
          let f2 := { r.1 with candle_buffer := r.1.candle_buffer ++ [candle] }
          let f2 :=
            if CANDLE_BUFFER_SIZE < f2.candle_buffer.length then
              { f2 with candle_buffer := f2.candle_buffer.tail }
            else f2
          (f2, r.2)
        else (f, [])
    | Option.none =>
        -- first candle (empty buffer)
        ({ f with candle_buffer := [candle] }, [])

/-- A candle message of the subscribed interval arriving in
`HyperliquidFeed::run`: the reconnection-replay guard drops it when its open
timestamp is strictly below `last_processed_candle_t`, otherwise it goes
through `process_candle` (not force-closed). -/
def feed_candle (sqrtQ : ℚ → ℚ) (f : HyperliquidFeed) (candle : HyperCandle) (now : ℕ) :
    HyperliquidFeed × List Strat.Signal :=
  if candle.t < f.last_processed_candle_t then (f, [])
  else process_candle sqrtQ f candle false now

end Feed

/- Concrete states used by the claim witnesses and counterexamples. -/

/-- A manager holding a short position opened through the API: start with
$100, `open_short` at entry 100 with the 5%-above stop 105 (risk 1% of $100
over a 5% stop gives a $20 notional, fully deducted from `available`). -/
def pmShort : PM.PositionManager :=
  ((PM.PositionManager.new 100).open_short 100 0 105).1

/-- A manager holding a long position (entry 100, stop 95, size 1). -/
def pmLong : PM.PositionManager :=
  { PM.PositionManager.new 100 with
      bankroll := { total_balance := 100, available_balance := 0, risk_percentage := 1 }
      position := some (PM.OpenPosition.new_long 100 0 1 95) }

/-- The ledger entry `pmLong.close_position 90 5` produces. -/
def tradeLong : PM.ClosedTrade :=
  { entry_price := 100
    exit_price := 90
    position_size := 1
    profit_loss := -10
    profit_loss_pct := -10
    entry_time := 0
    exit_time := 5
    trade_type := "Long"
    db_id := Option.none }

/-- A manager with one hour-old and one fresh trade timestamp, for the
kill-switch witness. -/
def pmKill : PM.PositionManager :=
  { PM.PositionManager.new 100 with trade_timestamps := [100, 9000] }

/-- The notional-sizing rule as the claim (amended) states it: with stop-loss
distance `d`, risk `available · risk_pct/100` over `d`; floor the result at
$10; cap it at `available` unless the value (after flooring) is exactly $10. -/
def clampedNotional (b : PM.BankrollInfo) (d : ℚ) : ℚ :=
  let N := b.available_balance * (b.risk_percentage / 100) / d
  let N := if N < 10 then 10 else N
  if b.available_balance < N ∧ N ≠ 10 then b.available_balance else N

/-- A crossed order book reached by placing a bid above an existing ask range:
range [0, 5), bid at price 1, ask at price 0. -/
def crossedBook : OB.OrderBookImpl :=
  ((OB.OrderBookImpl.with_range 0 5).apply_update
      (OB.Update.set 1 1 OB.Side.bid)).apply_update
    (OB.Update.set 0 1 OB.Side.ask)

/-- An uncrossed book: bid at price 0, ask at price 1 on range [0, 5). -/
def uncrossedBook : OB.OrderBookImpl :=
  ((OB.OrderBookImpl.with_range 0 5).apply_update
      (OB.Update.set 0 1 OB.Side.bid)).apply_update
    (OB.Update.set 1 1 OB.Side.ask)

/-- Three strictly rising closes through an RSI of period 2: the third call
produces an output whose average loss is zero. -/
def rsiTrace : Strat.RSI × Option ℚ :=
  (((Strat.RSI.new 2).update 1).1.update 2).1.update 3

/-- 28 identical candles `(high, low, close) = (2, 1, 1)` for the ADX warmup
witness. -/
def streamADX : List (ℚ × ℚ × ℚ) := List.replicate 28 (2, 1, 1)

/-- A feed-state whose strategy holds a `LongRange` position with Bollinger
bands `(90, 100, 110)`, whose buffer ends with (and whose replay cursor is at)
the candle with open timestamp 1000. -/
def feedC8 : Feed.HyperliquidFeed :=
  { candle_buffer := [{ t := 1000, T := 1060, s := "SOL", i := "1h",
                        o := 99, c := 99, h := 99, l := 98, v := 1, n := 1 }]
    last_processed_candle_t := 1000
    strategy := { Strat.AdaptiveStrategy.new Strat.AdaptiveConfig.default with
                    position_type := Strat.PositionType.LongRange
                    last_bollinger := some (90, 100, 110) }
    position_manager := PM.PositionManager.new 100
    is_running := true }

/-- A live update to the forming candle `t = 1000` whose high touches the
middle band. -/
def candleHot : Feed.HyperCandle :=
  { t := 1000, T := 1060, s := "SOL", i := "1h",
    o := 99, c := 99, h := 105, l := 98, v := 2, n := 2 }

/-- A replayed stale candle, strictly older than the cursor. -/
def candleStale : Feed.HyperCandle :=
  { t := 900, T := 960, s := "SOL", i := "1h",
    o := 99, c := 99, h := 100, l := 98, v := 2, n := 2 }

/-- The ADX warmup bookkeeping after `k` calls with period `N`: the previous
candle is stored from call 1 on, the TR buffer holds `min (k−1) N` samples
and the DX buffer `min (k−N) N`. -/
def ADXStateInv (N k : ℕ) (a : Strat.ADX) : Prop :=
  a.period = N ∧
  a.prev_high.isSome = decide (0 < k) ∧
  a.prev_low.isSome = decide (0 < k) ∧
  a.prev_close.isSome = decide (0 < k) ∧
  a.tr_buf.length = min (k - 1) N ∧
  a.dx_buf.length = min (k - N) N

/- ------------------------------------------------------------------ -/
/- Supporting lemmas                                                   -/
/- ------------------------------------------------------------------ -/

namespace OB

lemma getD_set_self (l : List ℕ) (i x : ℕ) (h : i < l.length) :
    (l.set i x).getD i 0 = x := by
  simp [List.getD]
  rw [List.getElem?_set_self]
  · simp
  · exact h

lemma getD_set_ne (l : List ℕ) (i j x : ℕ) (h : i ≠ j) :
    (l.set i x).getD j 0 = l.getD j 0 := by
  simp [List.getD, List.getElem?_set_ne h]

lemma getD_zero_of_len_le (l : List ℕ) (j : ℕ) (h : l.length ≤ j) : l.getD j 0 = 0 := by
  simp [List.getD, List.getElem?_eq_none h]

lemma getD_set_zero (l : List ℕ) (i : ℕ) : (l.set i 0).getD i 0 = 0 := by
  by_cases h : i < l.length
  · exact getD_set_self l i 0 h
  · exact getD_zero_of_len_le _ _ (by simpa using Nat.le_of_not_lt h)

lemma getD_replicate (n j : ℕ) : (List.replicate n (0 : ℕ)).getD j 0 = 0 := by
  simp [List.getD]

lemma findDown_some (q : List ℕ) :
    ∀ n i, findDown q n = some i →
      i < n ∧ 0 < q.getD i 0 ∧ ∀ j, i < j → j < n → q.getD j 0 = 0 := by
  intro n
  induction n with
  | zero => intro i h; simp [findDown] at h
  | succ n ih =>
      intro i h
      unfold findDown at h
      by_cases hq : 0 < q.getD n 0
      · rw [if_pos hq] at h
        obtain rfl := Option.some.inj h
        exact ⟨Nat.lt_succ_self n, hq, fun j h1 h2 => absurd h2 (by omega)⟩
      · rw [if_neg hq] at h
        obtain ⟨h1, h2, h3⟩ := ih i h
        refine ⟨by omega, h2, fun j hj1 hj2 => ?_⟩
        rcases Nat.lt_succ_iff_lt_or_eq.mp hj2 with hj | rfl
        · exact h3 j hj1 hj
        · exact Nat.eq_zero_of_not_pos hq

lemma findDown_none (q : List ℕ) :
    ∀ n, findDown q n = Option.none → ∀ j, j < n → q.getD j 0 = 0 := by
  intro n
  induction n with
  | zero => intro _ j hj; omega
  | succ n ih =>
      intro h j hj
      unfold findDown at h
      by_cases hq : 0 < q.getD n 0
      · rw [if_pos hq] at h; cases h
      · rw [if_neg hq] at h
        rcases Nat.lt_succ_iff_lt_or_eq.mp hj with hj | rfl
        · exact ih h j hj
        · exact Nat.eq_zero_of_not_pos hq

lemma findUpFrom_some (q : List ℕ) :
    ∀ fuel start i, findUpFrom q fuel start = some i →
      start ≤ i ∧ i < start + fuel ∧ 0 < q.getD i 0 ∧
        ∀ j, start ≤ j → j < i → q.getD j 0 = 0 := by
  intro fuel
  induction fuel with
  | zero => intro s i h; simp [findUpFrom] at h
  | succ fuel ih =>
      intro s i h
      unfold findUpFrom at h
      by_cases hq : 0 < q.getD s 0
      · rw [if_pos hq] at h
        obtain rfl := Option.some.inj h
        exact ⟨le_refl s, by omega, hq, fun j hj1 hj2 => absurd hj2 (by omega)⟩
      · rw [if_neg hq] at h
        obtain ⟨h1, h2, h3, h4⟩ := ih (s + 1) i h
        refine ⟨by omega, by omega, h3, fun j hj1 hj2 => ?_⟩
        rcases Nat.eq_or_lt_of_le hj1 with rfl | hj
        · exact Nat.eq_zero_of_not_pos hq
        · exact h4 j (by omega) hj2

lemma findUpFrom_none (q : List ℕ) :
    ∀ fuel start, findUpFrom q fuel start = Option.none →
      ∀ j, start ≤ j → j < start + fuel → q.getD j 0 = 0 := by
  intro fuel
  induction fuel with
  | zero => intro s _ j hj1 hj2; omega
  | succ fuel ih =>
      intro s h j hj1 hj2
      unfold findUpFrom at h
      by_cases hq : 0 < q.getD s 0
      · rw [if_pos hq] at h; cases h
      · rw [if_neg hq] at h
        rcases Nat.eq_or_lt_of_le hj1 with rfl | hj
        · exact Nat.eq_zero_of_not_pos hq
        · exact ih (s + 1) h j (by omega) (by omega)

lemma findUp_some (q : List ℕ) (levels start i : ℕ) (h : findUp q levels start = some i) :
    start ≤ i ∧ i < levels ∧ 0 < q.getD i 0 ∧ ∀ j, start ≤ j → j < i → q.getD j 0 = 0 := by
  obtain ⟨h1, h2, h3, h4⟩ := findUpFrom_some q _ _ _ h
  exact ⟨h1, by omega, h3, h4⟩

lemma findUp_none (q : List ℕ) (levels start : ℕ) (h : findUp q levels start = Option.none) :
    ∀ j, start ≤ j → j < levels → q.getD j 0 = 0 := by
  intro j h1 h2
  exact findUpFrom_none q _ _ h j h1 (by omega)

lemma bookInv_with_range (min_price max_price : ℤ) :
    BookInv (OrderBookImpl.with_range min_price max_price) := by
  refine ⟨by simp [OrderBookImpl.with_range], by simp [OrderBookImpl.with_range], ?_, ?_⟩
  · show BestBidInv _
    simp only [BestBidInv, OrderBookImpl.with_range]
    intro j
    exact getD_replicate _ j
  · show BestAskInv _
    simp only [BestAskInv, OrderBookImpl.with_range]
    intro j
    exact getD_replicate _ j

lemma price_to_idx_lt (b : OrderBookImpl) (price : ℤ) (idx : ℕ)
    (h : b.price_to_idx price = some idx) (hlen : b.bids.length = (b.max_price - b.min_price).toNat) :
    idx < b.bids.length := by
  unfold OrderBookImpl.price_to_idx at h
  split at h
  · obtain rfl := Option.some.inj h
    omega
  · cases h

lemma apply_update_remove_eq_set_zero (b : OrderBookImpl) (price : ℤ) (side : Side) :
    b.apply_update (Update.remove price side) = b.apply_update (Update.set price 0 side) := by
  unfold OrderBookImpl.apply_update
  cases hidx : b.price_to_idx price with
  | none => rfl
  | some idx => cases side <;> simp

lemma bookInv_set (b : OrderBookImpl) (price : ℤ) (qty : ℕ) (side : Side) (hb : BookInv b) :
    BookInv (b.apply_update (Update.set price qty side)) := by
  obtain ⟨hlen1, hlen2, hbid, hask⟩ := hb
  rcases hidx : b.price_to_idx price with _ | idx
  · simp only [OrderBookImpl.apply_update, hidx]
    exact ⟨hlen1, hlen2, hbid, hask⟩
  · have hidxlt : idx < b.bids.length := price_to_idx_lt b price idx hidx hlen1
    cases side with
    | bid =>
        by_cases hq : 0 < qty
        · -- Set bid, positive quantity: best becomes max(old best, idx)
          rcases hob : b.best_bid_idx with _ | best
          · simp only [OrderBookImpl.apply_update, hidx, if_pos hq, hob]
            refine ⟨by simp [hlen1], by simp [hlen2], ?_, hask⟩
            simp only [BestBidInv] at hbid ⊢
            rw [hob] at hbid
            refine ⟨by rw [getD_set_self _ _ _ hidxlt]; exact hq, fun j hj => ?_⟩
            rw [getD_set_ne _ _ _ _ (by omega)]
            exact hbid j
          · simp only [OrderBookImpl.apply_update, hidx, if_pos hq, hob]
            simp only [BestBidInv] at hbid
            rw [hob] at hbid
            obtain ⟨hpos, habove⟩ := hbid
            by_cases hbi : best < idx
            · simp only [if_pos hbi]
              refine ⟨by simp [hlen1], by simp [hlen2], ?_, hask⟩
              simp only [BestBidInv]
              refine ⟨by rw [getD_set_self _ _ _ hidxlt]; exact hq, fun j hj => ?_⟩
              rw [getD_set_ne _ _ _ _ (by omega)]
              exact habove j (by omega)
            · simp only [if_neg hbi]
              refine ⟨by simp [hlen1], by simp [hlen2], ?_, hask⟩
              simp only [BestBidInv]
              constructor
              · by_cases hbe : best = idx
                · subst hbe
                  rw [getD_set_self _ _ _ hidxlt]
                  exact hq
                · rw [getD_set_ne _ _ _ _ (fun h => hbe h.symm)]
                  exact hpos
              · intro j hj
                rw [getD_set_ne _ _ _ _ (by omega)]
                exact habove j hj
        · -- Set bid, zero quantity: erase the level, possibly rescan downward
          have hq0 : qty = 0 := by omega
          subst hq0
          by_cases hbb : b.best_bid_idx = some idx
          · rcases hfd : findDown (b.bids.set idx 0) idx with _ | i
            · simp only [OrderBookImpl.apply_update, hidx, if_neg hq, if_pos hbb, hfd]
              refine ⟨by simp [hlen1], by simp [hlen2], ?_, hask⟩
              simp only [BestBidInv] at hbid ⊢
              rw [hbb] at hbid
              obtain ⟨_, habove⟩ := hbid
              intro j
              rcases lt_trichotomy j idx with hj | rfl | hj
              · exact findDown_none _ _ hfd j hj
              · exact getD_set_zero _ _
              · rw [getD_set_ne _ _ _ _ (by omega)]
                exact habove j hj
            · simp only [OrderBookImpl.apply_update, hidx, if_neg hq, if_pos hbb, hfd]
              refine ⟨by simp [hlen1], by simp [hlen2], ?_, hask⟩
              simp only [BestBidInv] at hbid ⊢
              rw [hbb] at hbid
              obtain ⟨_, habove⟩ := hbid
              obtain ⟨hilt, hipos, hbetween⟩ := findDown_some _ _ _ hfd
              refine ⟨hipos, fun j hj => ?_⟩
              rcases lt_trichotomy j idx with hjlt | rfl | hjgt
              · exact hbetween j hj hjlt
              · exact getD_set_zero _ _
              · rw [getD_set_ne _ _ _ _ (by omega)]
                exact habove j hjgt
          · simp only [OrderBookImpl.apply_update, hidx, if_neg hq, if_neg hbb]
            refine ⟨by simp [hlen1], by simp [hlen2], ?_, hask⟩
            simp only [BestBidInv] at hbid ⊢
            rcases hob : b.best_bid_idx with _ | bb
            · rw [hob] at hbid
              intro j
              by_cases hji : j = idx
              · subst hji; exact getD_set_zero _ _
              · rw [getD_set_ne _ _ _ _ (fun h => hji h.symm)]
                exact hbid j
            · rw [hob] at hbid
              obtain ⟨hpos, habove⟩ := hbid
              have hne : idx ≠ bb := fun h => hbb (by rw [hob, h])
              refine ⟨by rw [getD_set_ne _ _ _ _ hne]; exact hpos, fun j hj => ?_⟩
              by_cases hji : j = idx
              · subst hji; exact getD_set_zero _ _
              · rw [getD_set_ne _ _ _ _ (fun h => hji h.symm)]
                exact habove j hj
    | ask =>
        have hALen : b.asks.length = b.price_levels := hlen2
        by_cases hq : 0 < qty
        · -- Set ask, positive quantity: best becomes min(old best, idx)
          have hidxltA : idx < b.asks.length := by rw [hlen2]; exact hidxlt
          rcases hob : b.best_ask_idx with _ | best
          · simp only [OrderBookImpl.apply_update, hidx, if_pos hq, hob]
            refine ⟨by simp [hlen1], by simp [hlen2], hbid, ?_⟩
            simp only [BestAskInv] at hask ⊢
            rw [hob] at hask
            refine ⟨by rw [getD_set_self _ _ _ hidxltA]; exact hq, fun j hj => ?_⟩
            rw [getD_set_ne _ _ _ _ (by omega)]
            exact hask j
          · simp only [OrderBookImpl.apply_update, hidx, if_pos hq, hob]
            simp only [BestAskInv] at hask
            rw [hob] at hask
            obtain ⟨hpos, hbelow⟩ := hask
            by_cases hbi : idx < best
            · simp only [if_pos hbi]
              refine ⟨by simp [hlen1], by simp [hlen2], hbid, ?_⟩
              simp only [BestAskInv]
              refine ⟨by rw [getD_set_self _ _ _ hidxltA]; exact hq, fun j hj => ?_⟩
              rw [getD_set_ne _ _ _ _ (by omega)]
              exact hbelow j (by omega)
            · simp only [if_neg hbi]
              refine ⟨by simp [hlen1], by simp [hlen2], hbid, ?_⟩
              simp only [BestAskInv]
              constructor
              · by_cases hbe : best = idx
                · subst hbe
                  rw [getD_set_self _ _ _ hidxltA]
                  exact hq
                · rw [getD_set_ne _ _ _ _ (fun h => hbe h.symm)]
                  exact hpos
              · intro j hj
                rw [getD_set_ne _ _ _ _ (by omega)]
                exact hbelow j hj
        · -- Set ask, zero quantity: erase the level, possibly rescan upward
          have hq0 : qty = 0 := by omega
          subst hq0
          by_cases hbb : b.best_ask_idx = some idx
          · rcases hfu : findUp (b.asks.set idx 0) b.price_levels (idx + 1) with _ | i
            · simp only [OrderBookImpl.apply_update, hidx, if_neg hq, if_pos hbb, hfu]
              refine ⟨by simp [hlen1], by simp [hlen2], hbid, ?_⟩
              simp only [BestAskInv] at hask ⊢
              rw [hbb] at hask
              obtain ⟨_, hbelow⟩ := hask
              intro j
              rcases lt_trichotomy j idx with hj | rfl | hj
              · rw [getD_set_ne _ _ _ _ (by omega)]
                exact hbelow j hj
              · exact getD_set_zero _ _
              · by_cases hjl : j < b.price_levels
                · exact findUp_none _ _ _ hfu j (by omega) hjl
                · exact getD_zero_of_len_le _ _ (by simp [hALen]; omega)
            · simp only [OrderBookImpl.apply_update, hidx, if_neg hq, if_pos hbb, hfu]
              refine ⟨by simp [hlen1], by simp [hlen2], hbid, ?_⟩
              simp only [BestAskInv] at hask ⊢
              rw [hbb] at hask
              obtain ⟨_, hbelow⟩ := hask
              obtain ⟨hige, _, hipos, hbetween⟩ := findUp_some _ _ _ _ hfu
              refine ⟨hipos, fun j hj => ?_⟩
              rcases lt_trichotomy j idx with hjlt | rfl | hjgt
              · rw [getD_set_ne _ _ _ _ (by omega)]
                exact hbelow j hjlt
              · exact getD_set_zero _ _
              · exact hbetween j (by omega) hj
          · simp only [OrderBookImpl.apply_update, hidx, if_neg hq, if_neg hbb]
            refine ⟨by simp [hlen1], by simp [hlen2], hbid, ?_⟩
            simp only [BestAskInv] at hask ⊢
            rcases hob : b.best_ask_idx with _ | bb
            · rw [hob] at hask
              intro j
              by_cases hji : j = idx
              · subst hji; exact getD_set_zero _ _
              · rw [getD_set_ne _ _ _ _ (fun h => hji h.symm)]
                exact hask j
            · rw [hob] at hask
              obtain ⟨hpos, hbelow⟩ := hask
              have hne : idx ≠ bb := fun h => hbb (by rw [hob, h])
              refine ⟨by rw [getD_set_ne _ _ _ _ hne]; exact hpos, fun j hj => ?_⟩
              by_cases hji : j = idx
              · subst hji; exact getD_set_zero _ _
              · rw [getD_set_ne _ _ _ _ (fun h => hji h.symm)]
                exact hbelow j hj

lemma bookInv_step (b : OrderBookImpl) (u : Update) (hb : BookInv b) :
    BookInv (b.apply_update u) := by
  cases u with
  | set price qty side => exact bookInv_set b price qty side hb
  | remove price side =>
      rw [apply_update_remove_eq_set_zero]
      exact bookInv_set b price 0 side hb

lemma bookInv_of_reachable (b : OrderBookImpl) (hb : Reachable b) : BookInv b := by
  induction hb with
  | base min_price max_price => exact bookInv_with_range min_price max_price
  | step b u _ ih => exact bookInv_step b u ih

lemma apply_update_min_max (b : OrderBookImpl) (u : Update) :
    (b.apply_update u).min_price = b.min_price ∧ (b.apply_update u).max_price = b.max_price := by
  rcases u with ⟨price, qty, side⟩ | ⟨price, side⟩ <;>
    cases hx : b.price_to_idx price <;>
      cases side <;>
        simp only [OrderBookImpl.apply_update, hx] <;>
          (try split_ifs) <;> simp

lemma price_to_idx_apply_update (b : OrderBookImpl) (u : Update) (price : ℤ) :
    (b.apply_update u).price_to_idx price = b.price_to_idx price := by
  obtain ⟨hmin, hmax⟩ := apply_update_min_max b u
  unfold OrderBookImpl.price_to_idx
  rw [hmin, hmax]

lemma bids_after_set_zero (b : OrderBookImpl) (price : ℤ) (idx : ℕ)
    (hidx : b.price_to_idx price = some idx) :
    (b.apply_update (Update.set price 0 Side.bid)).bids = b.bids.set idx 0 := by
  simp only [OrderBookImpl.apply_update, hidx]
  split_ifs <;> rfl

lemma asks_after_set_zero (b : OrderBookImpl) (price : ℤ) (idx : ℕ)
    (hidx : b.price_to_idx price = some idx) :
    (b.apply_update (Update.set price 0 Side.ask)).asks = b.asks.set idx 0 := by
  simp only [OrderBookImpl.apply_update, hidx]
  split_ifs <;> rfl

lemma get_quantity_at_set_zero (b : OrderBookImpl) (price : ℤ) (side : Side) :
    (b.apply_update (Update.set price 0 side)).get_quantity_at price side = Option.none := by
  have hpi := price_to_idx_apply_update b (Update.set price 0 side) price
  rcases hidx : b.price_to_idx price with _ | idx
  · unfold OrderBookImpl.get_quantity_at
    rw [hpi, hidx]
  · cases side
    · unfold OrderBookImpl.get_quantity_at
      rw [hpi, hidx]
      simp only [bids_after_set_zero b price idx hidx, getD_set_zero]
      simp
    · unfold OrderBookImpl.get_quantity_at
      rw [hpi, hidx]
      simp only [asks_after_set_zero b price idx hidx, getD_set_zero]
      simp

lemma bestMaintenance_of_reachable (b : OrderBookImpl) (hb : Reachable b) :
    BestMaintenance b := by
  obtain ⟨_, _, hbid, hask⟩ := bookInv_of_reachable b hb
  refine ⟨hbid, hask, fun price side => ?_, fun price side => ?_⟩
  · obtain ⟨_, _, hbid2, hask2⟩ :=
      bookInv_of_reachable _ (Reachable.step b (Update.set price 0 side) hb)
    exact ⟨get_quantity_at_set_zero b price side, hbid2, hask2⟩
  · obtain ⟨_, _, hbid2, hask2⟩ :=
      bookInv_of_reachable _ (Reachable.step b (Update.remove price side) hb)
    rw [apply_update_remove_eq_set_zero] at hbid2 hask2 ⊢
    exact ⟨get_quantity_at_set_zero b price side, hbid2, hask2⟩

end OB

/- ------------------------------------------------------------------ -/

lemma purge_eq_dropWhile (now : ℕ) (l : List ℕ) :
    PM.purge_old_timestamps now l = l.dropWhile (fun t => decide (3600 + t < now)) := by
  induction l with
  | nil => rfl
  | cons t rest ih =>
      unfold PM.purge_old_timestamps
      rw [List.dropWhile_cons]
      by_cases hc : 3600 < now - t
      · have hc2 : 3600 + t < now := by omega
        rw [if_pos hc, ih]
        simp [hc2]
      · have hc2 : ¬(3600 + t < now) := by omega
        simp [hc, hc2]

lemma clamp_tree_eq (avail N1 : ℚ) :
    (if avail < N1 then if N1 = 10 then N1 else avail else N1) =
      (if avail < N1 ∧ N1 ≠ 10 then avail else N1) := by
  split_ifs <;> tauto

lemma open_long_sizing (pm : PM.PositionManager) (entry_price stop_loss_price : ℚ)
    (entry_time : ℕ) (hpos : pm.position = Option.none) (hsl : 0 < stop_loss_price)
    (hlt : stop_loss_price < entry_price) :
    ((pm.open_long entry_price entry_time stop_loss_price).2).map
        (fun p => p.position_size) =
      some (clampedNotional pm.bankroll (|entry_price - stop_loss_price| / entry_price) /
        entry_price) := by
  have he : 0 < entry_price := lt_trans hsl hlt
  have habs : |entry_price - stop_loss_price| = entry_price - stop_loss_price :=
    abs_of_pos (by linarith)
  have hdpos : 0 < (entry_price - stop_loss_price) / entry_price :=
    div_pos (by linarith) he
  have hcalc : pm.bankroll.calculate_position_size
      (((entry_price - stop_loss_price) / entry_price) * 100) =
      pm.bankroll.available_balance * (pm.bankroll.risk_percentage / 100) /
        ((entry_price - stop_loss_price) / entry_price) := by
    unfold PM.BankrollInfo.calculate_position_size
    rw [if_neg (not_le.mpr (by positivity))]
    have h100 : (((entry_price - stop_loss_price) / entry_price) * 100) / 100 =
        (entry_price - stop_loss_price) / entry_price := by ring
    rw [h100]
  simp only [PM.PositionManager.open_long, hpos, Option.isSome_none, Bool.false_eq_true,
    if_false, hcalc, PM.OpenPosition.new_long, Option.map_some]
  rw [habs]
  simp only [clampedNotional]
  rw [clamp_tree_eq]
  rfl

lemma open_short_sizing (pm : PM.PositionManager) (entry_price stop_loss_price : ℚ)
    (entry_time : ℕ) (hpos : pm.position = Option.none) (he : 0 < entry_price)
    (hlt : entry_price < stop_loss_price) :
    ((pm.open_short entry_price entry_time stop_loss_price).2).map
        (fun p => p.position_size) =
      some (clampedNotional pm.bankroll (|entry_price - stop_loss_price| / entry_price) /
        entry_price) := by
  have habs : |entry_price - stop_loss_price| = stop_loss_price - entry_price := by
    rw [abs_of_neg (by linarith)]; ring
  have hdpos : 0 < (stop_loss_price - entry_price) / entry_price :=
    div_pos (by linarith) he
  have hcalc : pm.bankroll.calculate_position_size
      (((stop_loss_price - entry_price) / entry_price) * 100) =
      pm.bankroll.available_balance * (pm.bankroll.risk_percentage / 100) /
        ((stop_loss_price - entry_price) / entry_price) := by
    unfold PM.BankrollInfo.calculate_position_size
    rw [if_neg (not_le.mpr (by positivity))]
    have h100 : (((stop_loss_price - entry_price) / entry_price) * 100) / 100 =
        (stop_loss_price - entry_price) / entry_price := by ring
    rw [h100]
  simp only [PM.PositionManager.open_short, hpos, Option.isSome_none, Bool.false_eq_true,
    if_false, hcalc, PM.OpenPosition.new_short, Option.map_some]
  rw [habs]
  simp only [clampedNotional]
  rw [clamp_tree_eq]
  rfl

/- ------------------------------------------------------------------ -/
/- Claim theorems                                                      -/
/- ------------------------------------------------------------------ -/

/-- C9: for every open position and every exit price and time, the
`total_balance` after `close_position` minus the `total_balance` before
equals exactly the closed trade's recorded `profit_loss`. -/
theorem C9_close_total_balance_delta (pm : PM.PositionManager) (exit_price : ℚ)
    (exit_time : ℕ) (trade : PM.ClosedTrade)
    (h : (pm.close_position exit_price exit_time).2 = some trade) :
    (pm.close_position exit_price exit_time).1.bankroll.total_balance =
      pm.bankroll.total_balance + trade.profit_loss := by
  rcases hpos : pm.position with _ | pos
  · simp [PM.PositionManager.close_position, hpos] at h
  · simp only [PM.PositionManager.close_position, hpos, Option.some.injEq] at h ⊢
    subst h
    simp [PM.BankrollInfo.update_available_balance]

/-- C9 witness: closing the concrete long `pmLong` at 90 yields the ledger
entry `tradeLong` and moves `total_balance` by exactly its −10 `profit_loss`. -/
theorem C9_witness :
    (pmLong.close_position 90 5).2 = some tradeLong ∧
      (pmLong.close_position 90 5).1.bankroll.total_balance =
        pmLong.bankroll.total_balance + tradeLong.profit_loss := by
  have h : (pmLong.close_position 90 5).2 = some tradeLong := by
    norm_num [pmLong, tradeLong, PM.PositionManager.new, PM.BankrollInfo.new,
      PM.PositionManager.close_position, PM.OpenPosition.new_long, PM.OpenPosition.update_pnl,
      PM.BankrollInfo.update_available_balance, PM.ClosedTrade.mk.injEq]
  exact ⟨h, C9_close_total_balance_delta pmLong 90 5 tradeLong h⟩

/-- C4: `check_safety_limits(max_dd_pct, max_trades_per_hour)` returns `Err`
iff the session drawdown `(initial − total)/initial · 100` exceeds
`max_dd_pct` or, after removing from the front of the trade-timestamp window
every entry strictly older than 3600 s, at least `max_trades_per_hour`
timestamps remain; otherwise it returns `Ok` and the only state change is
that purge.  (`t ≤ now` keeps the `ℕ` model aligned with the `u64` clock
arithmetic of `now - t`.) -/
theorem C4_check_safety_limits (pm : PM.PositionManager) (now : ℕ) (max_dd_pct : ℚ)
    (max_tph : ℕ) (_hts : ∀ t ∈ pm.trade_timestamps, t ≤ now) :
    ((∃ e, (pm.check_safety_limits now max_dd_pct max_tph).2 = Except.error e) ↔
      (max_dd_pct <
          ((pm.initial_balance_session - pm.bankroll.total_balance) /
              pm.initial_balance_session) * 100 ∨
        max_tph ≤
          (pm.trade_timestamps.dropWhile (fun t => decide (3600 + t < now))).length)) ∧
    ((pm.check_safety_limits now max_dd_pct max_tph).2 = Except.ok () →
      (pm.check_safety_limits now max_dd_pct max_tph).1 =
        { pm with trade_timestamps :=
            pm.trade_timestamps.dropWhile (fun t => decide (3600 + t < now)) }) := by
  simp only [PM.PositionManager.check_safety_limits, purge_eq_dropWhile]
  by_cases h1 : max_dd_pct <
      ((pm.initial_balance_session - pm.bankroll.total_balance) /
        pm.initial_balance_session) * 100
  · simp [h1]
  · by_cases h2 : max_tph ≤
        (pm.trade_timestamps.dropWhile (fun t => decide (3600 + t < now))).length
    · simp [h1, h2]
    · simp [h1, h2]

/-- C4 witness: two timestamps 100 and 9000 at clock 10000 with limits
(5%, 5/h): the old one is purged, one remains, the call succeeds. -/
theorem C4_witness :
    (∀ t ∈ pmKill.trade_timestamps, t ≤ 10000) ∧
    ((∃ e, (pmKill.check_safety_limits 10000 5 5).2 = Except.error e) ↔
      ((5 : ℚ) <
          ((pmKill.initial_balance_session - pmKill.bankroll.total_balance) /
              pmKill.initial_balance_session) * 100 ∨
        5 ≤
          (pmKill.trade_timestamps.dropWhile (fun t => decide (3600 + t < 10000))).length)) ∧
    ((pmKill.check_safety_limits 10000 5 5).2 = Except.ok () →
      (pmKill.check_safety_limits 10000 5 5).1 =
        { pmKill with trade_timestamps :=
            pmKill.trade_timestamps.dropWhile (fun t => decide (3600 + t < 10000)) }) :=
  ⟨by decide, (C4_check_safety_limits pmKill 10000 5 5 (by decide)).1,
   (C4_check_safety_limits pmKill 10000 5 5 (by decide)).2⟩

/-- C6 (amended): on `open_long`/`open_short` with no position open and the
stop on the safe side of entry, the notional is `available · (risk_pct/100) / d`
with `d = |entry − sl|/entry`, floored at $10, then capped at `available`
unless the floored value equals exactly $10 (the code tests `== 10.0`, which
also spares a computed notional of exactly $10); the size is that notional
over the entry price (`clampedNotional` spells out this rule). -/
theorem C6_position_sizing :
    (∀ (pm : PM.PositionManager) (entry_price stop_loss_price : ℚ) (entry_time : ℕ),
        pm.position = Option.none → 0 < stop_loss_price → stop_loss_price < entry_price →
        ((pm.open_long entry_price entry_time stop_loss_price).2).map
            (fun p => p.position_size) =
          some (clampedNotional pm.bankroll
              (|entry_price - stop_loss_price| / entry_price) / entry_price)) ∧
    (∀ (pm : PM.PositionManager) (entry_price stop_loss_price : ℚ) (entry_time : ℕ),
        pm.position = Option.none → 0 < entry_price → entry_price < stop_loss_price →
        ((pm.open_short entry_price entry_time stop_loss_price).2).map
            (fun p => p.position_size) =
          some (clampedNotional pm.bankroll
              (|entry_price - stop_loss_price| / entry_price) / entry_price)) :=
  ⟨fun pm e sl t h1 h2 h3 => open_long_sizing pm e sl t h1 h2 h3,
   fun pm e sl t h1 h2 h3 => open_short_sizing pm e sl t h1 h2 h3⟩

/-- C6 counterexample: available $8, risk 1%, entry 1000, stop 992 (0.8%
distance) computes a notional of exactly $10 > available while the $10 floor
never fired; the claim as stated then caps at available ($8, size 8/1000 =
1/125), but the code's `== 10.0` test spares it and keeps $10 (size 1/100). -/
theorem C6_counterexample :
    (PM.PositionManager.new 8).position = Option.none ∧
    (((PM.PositionManager.new 8).open_long 1000 0 992).2).map
        (fun p => p.position_size) = some (1 / 100) ∧
    ¬((((PM.PositionManager.new 8).open_long 1000 0 992).2).map
        (fun p => p.position_size) =
      some ((PM.PositionManager.new 8).bankroll.available_balance / 1000)) := by
  have h : (((PM.PositionManager.new 8).open_long 1000 0 992).2).map
      (fun p => p.position_size) = some (1 / 100) := by
    norm_num [PM.PositionManager.new, PM.BankrollInfo.new, PM.PositionManager.open_long,
      PM.BankrollInfo.calculate_position_size, PM.OpenPosition.new_long,
      PM.BankrollInfo.update_available_balance]
  refine ⟨rfl, h, ?_⟩
  rw [h]
  norm_num [PM.PositionManager.new, PM.BankrollInfo.new]

/-- C6 witness: available $50, risk 1%, entry 100, stop 98 (2% distance):
the computed notional is $25, inside the clamps, so the size is 1/4. -/
theorem C6_witness :
    (PM.PositionManager.new 50).position = Option.none ∧ ((0 : ℚ) < 98) ∧
    ((98 : ℚ) < 100) ∧
    (((PM.PositionManager.new 50).open_long 100 7 98).2).map (fun p => p.position_size) =
      some (clampedNotional (PM.PositionManager.new 50).bankroll
          ((|100 - 98| : ℚ) / 100) / 100) ∧
    clampedNotional (PM.PositionManager.new 50).bankroll ((|100 - 98| : ℚ) / 100) / 100 =
      1 / 4 :=
  ⟨rfl, by norm_num, by norm_num,
   C6_position_sizing.1 _ 100 98 7 rfl (by norm_num) (by norm_num),
   by norm_num [clampedNotional, PM.PositionManager.new, PM.BankrollInfo.new]⟩

/-- C1 (code bug, Short branch): `pmShort` opened a short whose $20 collateral
was fully deducted at open (available 100 → 80).  Closing at 90 realises
PnL +$2, but the code credits `position_value − pnl = $18` back, leaving
`available_balance` at $98 instead of collateral + PnL = $102; the more
profitable the short, the less is restored, and `available = total` no longer
holds when flat (the Long branch credits `size · exit = collateral + pnl`). -/
theorem C1_short_close_restores_wrong_amount :
    pmShort.bankroll.available_balance = 80 ∧
    (pmShort.position.map (fun p => p.position_value)) = some 20 ∧
    ((pmShort.close_position 90 5).2).map (fun tr => tr.profit_loss) = some 2 ∧
    (pmShort.close_position 90 5).1.bankroll.available_balance = 98 ∧
    (98 : ℚ) ≠ 80 + (20 + 2) := by
  refine ⟨?_, ?_, ?_, ?_, by norm_num⟩ <;>
    norm_num [pmShort, PM.PositionManager.new, PM.BankrollInfo.new,
      PM.PositionManager.open_short, PM.BankrollInfo.calculate_position_size,
      PM.OpenPosition.new_short, PM.BankrollInfo.update_available_balance,
      PM.PositionManager.close_position, PM.OpenPosition.update_pnl, min_def]

/-- C2: in every book state reachable from an empty book by `apply_update`
operations, `best_bid_idx` is the largest index with non-zero bid quantity
(`None` if there is none) and `best_ask_idx` the smallest with non-zero ask;
consequently, after any `Set{price, 0, side}` or `Remove{price, side}`,
`get_quantity_at(price, side)` is `None` and the best caches again point at
the next non-zero level of that side (or are `None`). -/
theorem C2_best_maintenance (b : OB.OrderBookImpl) (hb : OB.Reachable b) :
    OB.BestMaintenance b :=
  OB.bestMaintenance_of_reachable b hb

/-- C2 witness: the freshly constructed book over the price range [0, 5). -/
theorem C2_witness : OB.BestMaintenance (OB.OrderBookImpl.with_range 0 5) :=
  C2_best_maintenance _ (OB.Reachable.base 0 5)

/-- C7 counterexample: nothing stops `apply_update` from crossing the book.
From the empty range [0, 5), `Set{1, 1, Bid}` then `Set{0, 1, Ask}` is
reachable and leaves `best_bid_idx = 1 > 0 = best_ask_idx`, refuting the
claimed invariant. -/
theorem C7_counterexample :
    ¬(∀ b : OB.OrderBookImpl, OB.Reachable b → ∀ i j, b.best_bid_idx = some i →
        b.best_ask_idx = some j → i < j) := by
  intro h
  have hr : OB.Reachable crossedBook :=
    OB.Reachable.step _ _ (OB.Reachable.step _ _ (OB.Reachable.base 0 5))
  have := h crossedBook hr 1 0 (by decide) (by decide)
  omega

/-- C7 (amended): the book itself never enforces price ordering between the
sides, so the invariant holds exactly on the reachable states whose level
arrays are uncrossed: if every non-zero bid level sits strictly below every
non-zero ask level, then whenever both best caches are present,
`best_bid_idx < best_ask_idx`. -/
theorem C7_uncrossed_best_ordering (b : OB.OrderBookImpl) (hb : OB.Reachable b)
    (huncrossed : ∀ i j, 0 < b.bids.getD i 0 → 0 < b.asks.getD j 0 → i < j)
    (i j : ℕ) (hi : b.best_bid_idx = some i) (hj : b.best_ask_idx = some j) : i < j := by
  obtain ⟨_, _, hbid, hask⟩ := OB.bookInv_of_reachable b hb
  unfold OB.BestBidInv at hbid
  unfold OB.BestAskInv at hask
  rw [hi] at hbid
  rw [hj] at hask
  exact huncrossed i j hbid.1 hask.1

/-- C7 witness: the uncrossed book (bid at 0, ask at 1) is reachable and its
best bid index 0 is below its best ask index 1. -/
theorem C7_witness :
    (∀ i j, 0 < uncrossedBook.bids.getD i 0 → 0 < uncrossedBook.asks.getD j 0 → i < j) ∧
    uncrossedBook.best_bid_idx = some 0 ∧ uncrossedBook.best_ask_idx = some 1 ∧
    (0 : ℕ) < 1 := by
  have hB : uncrossedBook.bids = [1, 0, 0, 0, 0] := by decide
  have hA : uncrossedBook.asks = [0, 1, 0, 0, 0] := by decide
  have hcross : ∀ i j, 0 < uncrossedBook.bids.getD i 0 →
      0 < uncrossedBook.asks.getD j 0 → i < j := by
    intro i j hi hj
    rw [hB] at hi
    rw [hA] at hj
    have hi0 : i = 0 := by
      by_contra hne
      have hz : ([1, 0, 0, 0, 0] : List ℕ).getD i 0 = 0 := by
        by_cases hlt : i < 5
        · interval_cases i
          · exact absurd rfl hne
          · rfl
          · rfl
          · rfl
          · rfl
        · exact OB.getD_zero_of_len_le _ _ (by simp; omega)
      rw [hz] at hi
      exact absurd hi (lt_irrefl 0)
    have hj1 : j = 1 := by
      by_contra hne
      have hz : ([0, 1, 0, 0, 0] : List ℕ).getD j 0 = 0 := by
        by_cases hlt : j < 5
        · interval_cases j
          · rfl
          · exact absurd rfl hne
          · rfl
          · rfl
          · rfl
        · exact OB.getD_zero_of_len_le _ _ (by simp; omega)
      rw [hz] at hj
      exact absurd hj (lt_irrefl 0)
    omega
  have hreach : OB.Reachable uncrossedBook :=
    OB.Reachable.step _ _ (OB.Reachable.step _ _ (OB.Reachable.base 0 5))
  exact ⟨hcross, by decide, by decide,
    C7_uncrossed_best_ordering uncrossedBook hreach hcross 0 1 (by decide) (by decide)⟩

/-- C3 counterexample: three rising closes through RSI(2) produce an output
whose average loss is zero, and that output is `100 − 100/(1+100) =
10000/101 ≈ 99.0099`, not 100: the code maps `avg_loss == 0` to `RS = 100`,
not to an RSI of 100. -/
theorem C3_counterexample :
    rsiTrace.2 = some (10000 / 101) ∧ (rsiTrace.1).prev_avg_loss = some 0 ∧
      rsiTrace.2 ≠ some 100 := by
  refine ⟨?_, ?_, ?_⟩ <;>
    norm_num [rsiTrace, Strat.RSI.new, Strat.RSI.update, Strat.gainsLosses]

/-- C3 (amended): whenever `RSI::update` emits a value and the average loss
it computed (stored as `prev_avg_loss`) is zero, the emitted value is exactly
`100 − 100/(1 + 100) = 10000/101` (the code substitutes `RS = 100` when
`avg_loss == 0`), in both the initial and the Wilder-smoothed branch. -/
theorem C3_rsi_avg_loss_zero (r : Strat.RSI) (price : ℚ) (r2 : Strat.RSI) (v : ℚ)
    (hout : r.update price = (r2, some v))
    (hloss : r2.prev_avg_loss = some 0) :
    v = 10000 / 101 := by
  unfold Strat.RSI.update at hout
  rcases hg : r.prev_avg_gain with _ | pag <;> simp only [hg] at hout <;>
    split_ifs at hout with h1 h2 h3 h4 h5 h6 <;>
      simp only [Prod.mk.injEq] at hout
  all_goals obtain ⟨hr2, hv⟩ := hout
  all_goals try exact Option.noConfusion hv
  all_goals obtain rfl := Option.some.inj hv
  all_goals subst hr2
  all_goals simp only [Option.some.injEq] at hloss
  all_goals first
    | exact absurd hloss (by assumption)
    | norm_num

/-- C3 witness: the amended claim applied to the third call of the rising
trace. -/
theorem C3_witness :
    ((((Strat.RSI.new 2).update 1).1.update 2).1.update 3 =
      (rsiTrace.1, some (10000 / 101))) ∧
    (rsiTrace.1).prev_avg_loss = some 0 ∧ (10000 / 101 : ℚ) = 10000 / 101 := by
  have hpair : (((Strat.RSI.new 2).update 1).1.update 2).1.update 3 =
      (rsiTrace.1, some (10000 / 101)) := by
    rw [Prod.ext_iff]
    constructor
    · rfl
    · norm_num [rsiTrace, Strat.RSI.new, Strat.RSI.update, Strat.gainsLosses]
  have hl : (rsiTrace.1).prev_avg_loss = some 0 := by
    norm_num [rsiTrace, Strat.RSI.new, Strat.RSI.update, Strat.gainsLosses]
  exact ⟨hpair, hl, C3_rsi_avg_loss_zero _ 3 _ _ hpair hl⟩

lemma smooth_tr_dm_period (a : Strat.ADX) (tr p m : ℚ) :
    (a.smooth_tr_dm tr p m).period = a.period := by
  unfold Strat.ADX.smooth_tr_dm
  dsimp only
  split_ifs <;> rfl

lemma smooth_tr_dm_dx_buf (a : Strat.ADX) (tr p m : ℚ) :
    (a.smooth_tr_dm tr p m).dx_buf = a.dx_buf := by
  unfold Strat.ADX.smooth_tr_dm
  dsimp only
  split_ifs <;> rfl

lemma smooth_tr_dm_prev (a : Strat.ADX) (tr p m : ℚ) :
    (a.smooth_tr_dm tr p m).prev_high = a.prev_high ∧
    (a.smooth_tr_dm tr p m).prev_low = a.prev_low ∧
    (a.smooth_tr_dm tr p m).prev_close = a.prev_close := by
  unfold Strat.ADX.smooth_tr_dm
  dsimp only
  split_ifs <;> exact ⟨rfl, rfl, rfl⟩

lemma smooth_tr_dm_tr_len (a : Strat.ADX) (tr p m : ℚ) :
    (a.smooth_tr_dm tr p m).tr_buf.length =
      if a.tr_buf.length < a.period then a.tr_buf.length + 1 else a.tr_buf.length := by
  unfold Strat.ADX.smooth_tr_dm
  dsimp only
  split_ifs with h1 h2 <;> simp

lemma smooth_dx_period (a2 : Strat.ADX) : a2.smooth_dx.period = a2.period := by
  unfold Strat.ADX.smooth_dx
  dsimp only
  split_ifs <;> rfl

lemma smooth_dx_tr_buf (a2 : Strat.ADX) : a2.smooth_dx.tr_buf = a2.tr_buf := by
  unfold Strat.ADX.smooth_dx
  dsimp only
  split_ifs <;> rfl

lemma smooth_dx_dx_len (a2 : Strat.ADX) :
    a2.smooth_dx.dx_buf.length =
      if a2.period ≤ a2.tr_buf.length ∧ a2.dx_buf.length < a2.period then
        a2.dx_buf.length + 1
      else a2.dx_buf.length := by
  unfold Strat.ADX.smooth_dx
  dsimp only
  split_ifs with h1 h2 h3 <;> simp_all

lemma adx_update_inv (N k : ℕ) (hN : 0 < N) (a : Strat.ADX) (h : ADXStateInv N k a)
    (hi lo cl : ℚ) :
    ADXStateInv N (k + 1) ((a.update hi lo cl).1) ∧
      (((a.update hi lo cl).2 = Option.none) ↔ k + 1 < 2 * N) := by
  obtain ⟨hper, hph, hpl, hpc, htr, hdx⟩ := h
  by_cases hk : 0 < k
  · obtain ⟨ph, hph2⟩ := Option.isSome_iff_exists.mp (by rw [hph]; simp [hk])
    obtain ⟨pl, hpl2⟩ := Option.isSome_iff_exists.mp (by rw [hpl]; simp [hk])
    obtain ⟨pc, hpc2⟩ := Option.isSome_iff_exists.mp (by rw [hpc]; simp [hk])
    simp only [Strat.ADX.update, hph2, hpl2, hpc2]
    have htrlen : ∀ tr p m : ℚ,
        ((a.smooth_tr_dm tr p m).smooth_dx).tr_buf.length = min k N := by
      intro tr p m
      rw [smooth_dx_tr_buf, smooth_tr_dm_tr_len]
      split_ifs with hc <;> omega
    have hdxlen : ∀ tr p m : ℚ,
        ((a.smooth_tr_dm tr p m).smooth_dx).dx_buf.length = min (k + 1 - N) N := by
      intro tr p m
      rw [smooth_dx_dx_len, smooth_tr_dm_period, smooth_tr_dm_dx_buf, smooth_tr_dm_tr_len]
      split_ifs with hc <;> omega
    have hperiod : ∀ tr p m : ℚ,
        ((a.smooth_tr_dm tr p m).smooth_dx).period = N := by
      intro tr p m
      rw [smooth_dx_period, smooth_tr_dm_period, hper]
    refine ⟨⟨by simp [hperiod], by simp, by simp, by simp,
      by simpa using htrlen _ _ _, by simpa using hdxlen _ _ _⟩, ?_⟩
    simp only [hperiod, hdxlen]
    split_ifs with hc
    · constructor
      · intro hfalse
        exact absurd hfalse (by simp)
      · intro hlt
        exfalso
        omega
    · constructor
      · intro _
        omega
      · intro _
        rfl
  · have hk0 : k = 0 := by omega
    subst hk0
    have hph2 : a.prev_high = Option.none := by
      cases hh : a.prev_high
      · rfl
      · rw [hh] at hph; simp at hph
    have hpl2 : a.prev_low = Option.none := by
      cases hh : a.prev_low
      · rfl
      · rw [hh] at hpl; simp at hpl
    have hpc2 : a.prev_close = Option.none := by
      cases hh : a.prev_close
      · rfl
      · rw [hh] at hpc; simp at hpc
    simp only [Strat.ADX.update, hph2, hpl2, hpc2]
    refine ⟨⟨by simp [hper], by simp, by simp, by simp,
      by show a.tr_buf.length = min (0 + 1 - 1) N; omega,
      by show a.dx_buf.length = min (0 + 1 - N) N; omega⟩, ?_⟩
    rw [if_neg (show ¬(a.period ≤ a.dx_buf.length) by omega)]
    simp only [true_iff]
    omega

lemma adx_run_outputs (N : ℕ) (hN : 0 < N) :
    ∀ (stream : List (ℚ × ℚ × ℚ)) (k : ℕ) (a : Strat.ADX), ADXStateInv N k a →
      ∀ i, i < stream.length →
        (((a.run stream).2.getD i Option.none = Option.none) ↔ k + i + 1 < 2 * N) := by
  intro stream
  induction stream with
  | nil =>
      intro k a _ i hi
      simp at hi
  | cons c rest ih =>
      intro k a hk i hi
      obtain ⟨hinv, hout⟩ := adx_update_inv N k hN a hk c.1 c.2.1 c.2.2
      rcases i with _ | i
      · simpa [Strat.ADX.run] using hout
      · have hrec := ih (k + 1) _ hinv i (by simpa using hi)
        simp only [Strat.ADX.run, List.getD_cons_succ]
        rw [hrec]
        omega

lemma adx_new_inv (N : ℕ) : ADXStateInv N 0 (Strat.ADX.new N) := by
  refine ⟨rfl, by simp [Strat.ADX.new], by simp [Strat.ADX.new], by simp [Strat.ADX.new],
    by simp [Strat.ADX.new], by simp [Strat.ADX.new]⟩

/-- C5: over any candle stream, `ADX(N)::update` (for `0 < N`) returns `None`
on call `k+1` exactly when `k+1 < 2N`: `None` strictly before call `2N` and
`Some` from call `2N` onward (for `N = 14`: `None` through call 27, `Some`
from call 28), i.e. output begins exactly when the DX buffer of length `N`
has been seeded. -/
theorem C5_adx_warmup (N : ℕ) (hN : 0 < N) (stream : List (ℚ × ℚ × ℚ)) (k : ℕ)
    (hk : k < stream.length) :
    (((Strat.ADX.new N).run stream).2.getD k Option.none = Option.none) ↔ k + 1 < 2 * N := by
  have h := adx_run_outputs N hN stream 0 (Strat.ADX.new N) (adx_new_inv N) k hk
  simpa using h

/-- C5 witness: with `N = 14` over 28 candles, call 27 (index 26) yields
`None` and call 28 (index 27) yields `Some`. -/
theorem C5_witness :
    (0 < 14) ∧ (26 < streamADX.length) ∧ (27 < streamADX.length) ∧
    ((((Strat.ADX.new 14).run streamADX).2.getD 26 Option.none = Option.none) ↔ 27 < 28) ∧
    ((((Strat.ADX.new 14).run streamADX).2.getD 27 Option.none = Option.none) ↔ 28 < 28) := by
  have h1 : (26 : ℕ) < streamADX.length := by simp [streamADX]
  have h2 : (27 : ℕ) < streamADX.length := by simp [streamADX]
  exact ⟨by norm_num,  h1, h2,
    by simpa using C5_adx_warmup 14 (by norm_num) streamADX 26 h1,
    by simpa using C5_adx_warmup 14 (by norm_num) streamADX 27 h2⟩

/-- C10: for every candle with `high ≥ close` (true of any real candle) and
every strategy state, `AdaptiveStrategy::update` never returns
`UpgradeToTrend`: in the `LongRange` arm the exit check `high ≥ middle_band`
runs before the upgrade check `close > middle_band`, and
`close > middle_band` with `high ≥ close` forces `high ≥ middle_band`, so the
`SellRange` exit always preempts the upgrade. -/
theorem C10_no_upgrade (sqrtQ : ℚ → ℚ) (s : Strat.AdaptiveStrategy) (high low close : ℚ)
    (h : close ≤ high) :
    (Strat.AdaptiveStrategy.update sqrtQ s high low close).2 ≠
      Strat.Signal.UpgradeToTrend := by
  unfold Strat.AdaptiveStrategy.update
  rcases hbb : (s.bollinger.update sqrtQ close).2 with _ | bands
  · simp [hbb]
  · rcases hst : (s.supertrend.update high low close).2 with _ | st
    · simp [hbb, hst]
    · rcases hadx : (s.adx.update high low close).2 with _ | adx_value
      · simp [hbb, hst, hadx]
      · rcases hrsi : (s.rsi.update close).2 with _ | rsi
        · simp only [hbb, hst, hadx, hrsi]
          cases hpt : s.position_type <;> simp only [hpt]
          · split_ifs <;> cases hreg : (if s.config.adx_threshold ≤ adx_value then
                Strat.MarketRegime.Trending else Strat.MarketRegime.Ranging) <;>
              simp_all
          · split_ifs with h1 h2 h3 <;> simp_all
            linarith
          · split_ifs <;> simp_all
          · split_ifs <;> simp_all
        · simp only [hbb, hst, hadx, hrsi]
          cases hpt : s.position_type <;> simp only [hpt]
          · split_ifs <;> cases hreg : (if s.config.adx_threshold ≤ adx_value then
                Strat.MarketRegime.Trending else Strat.MarketRegime.Ranging) <;>
              simp_all
          · split_ifs with h1 h2 h3 <;> simp_all
            linarith
          · split_ifs <;> simp_all
          · split_ifs <;> simp_all

/-- C10 witness: a fresh default strategy fed the candle
`(high, low, close) = (3, 1, 2)` (with any square root, here the zero
function). -/
theorem C10_witness :
    ((2 : ℚ) ≤ 3) ∧
    (Strat.AdaptiveStrategy.update (fun _ => 0)
        (Strat.AdaptiveStrategy.new Strat.AdaptiveConfig.default) 3 1 2).2 ≠
      Strat.Signal.UpgradeToTrend :=
  ⟨by norm_num,
   C10_no_upgrade (fun _ => 0) (Strat.AdaptiveStrategy.new Strat.AdaptiveConfig.default)
     3 1 2 (by norm_num)⟩

/-- C8 (amended): a candle whose open timestamp is strictly below
`last_processed_candle_t` is dropped by the reconnection-replay guard before
`process_candle` runs: the feed state (buffer, cursor, strategy with all its
indicators, position manager) is unchanged and no signal is produced.  (At
`t == last_processed_candle_t` the candle is deliberately let through as a
live update of the forming candle and may trigger the intra-candle exit.) -/
theorem C8_replay_guard (sqrtQ : ℚ → ℚ) (f : Feed.HyperliquidFeed)
    (candle : Feed.HyperCandle) (now : ℕ)
    (h : candle.t < f.last_processed_candle_t) :
    Feed.feed_candle sqrtQ f candle now = (f, []) := by
  simp [Feed.feed_candle, h]

/-- C8 witness: the stale candle `t = 900` against the cursor at 1000. -/
theorem C8_witness :
    candleStale.t < feedC8.last_processed_candle_t ∧
    Feed.feed_candle (fun _ => 0) feedC8 candleStale 0 = (feedC8, []) :=
  ⟨by norm_num [candleStale, feedC8],
   C8_replay_guard (fun _ => 0) feedC8 candleStale 0 (by norm_num [candleStale, feedC8])⟩

/-- C8 counterexample: the claim's `t ≤ last_processed_candle_t` is too
strong.  A live update with `t` equal to the cursor (reachable after a
watchdog force-close leaves the buffer ending in the processed candle) is let
through: with the strategy long in range and the update's high touching the
middle band, the intra-candle probe fires, a `SellRange` signal is produced
and the strategy's position state changes. -/
theorem C8_counterexample :
    candleHot.t ≤ feedC8.last_processed_candle_t ∧
    (Feed.feed_candle (fun _ => 0) feedC8 candleHot 0).2 = [Strat.Signal.SellRange] ∧
    (Feed.feed_candle (fun _ => 0) feedC8 candleHot 0).1.strategy.position_type =
      Strat.PositionType.None ∧
    feedC8.strategy.position_type = Strat.PositionType.LongRange := by
  refine ⟨by norm_num [candleHot, feedC8], ?_, ?_, by norm_num [feedC8]⟩ <;>
    norm_num [Feed.feed_candle, Feed.process_candle, Feed.handle_trading_signal,
      Strat.AdaptiveStrategy.check_exit_condition, Strat.AdaptiveStrategy.force_exit,
      feedC8, candleHot, Strat.AdaptiveStrategy.new, Strat.AdaptiveConfig.default,
      PM.PositionManager.new, PM.BankrollInfo.new]
